import Mathlib

/-!
Verification development for the Hazel/Adorad compiler front-end.

The lexer is embedded from `src/hazel/compiler/lexer/lexer.c`, the parser
from `src/adorad/compiler/parser.c`.  Source buffers are modelled as lists
of bytes (`List Nat`); reading the C string at or past its length yields
the NUL terminator, modelled by `bget` returning 0 out of range.  Loops
that the C code does not obviously terminate are given explicit fuel; a
`none` result means the run did not complete normally (out of fuel, which
also covers a genuinely diverging loop, or a failing CSTL assertion).
-/

namespace Hazel

/-- Token kinds, from the token enumeration used by lexer.c and parser.c.
`ATSIGN` is the `@` token (named after its lexeme; the source's name for it
is unavailable here).  `TOK_ILLEGAL` and `TOK_EOF` are the control
sentinels. -/
inductive TokenKind where
  | TOK_ILLEGAL | TOK_EOF
  | IDENTIFIER | STRING | INTEGER | FLOAT_LIT | CHAR
  | SEMICOLON | COMMA | BACKSLASH | LSQUAREBRACK | RSQUAREBRACK
  | LBRACE | RBRACE | LPAREN | RPAREN
  | EQUALS | EQUALS_EQUALS | EQUALS_ARROW
  | PLUS | PLUS_PLUS | PLUS_EQUALS
  | MINUS | MINUS_MINUS | MINUS_EQUALS | RARROW
  | MULT | MULT_MULT | MULT_EQUALS
  | SLASH | SLASH_EQUALS
  | HASH_SIGN
  | EXCLAMATION_EQUALS
  | MOD | MOD_MOD | MOD_EQUALS
  | AND | AND_AND | AND_NOT | AND_EQUALS
  | OR | OR_OR | OR_EQUALS
  | XOR | XOR_EQUALS
  | LESS_THAN | LESS_THAN_OR_EQUAL_TO | LARROW | LBITSHIFT | LBITSHIFT_EQUALS
  | GREATER_THAN | GREATER_THAN_OR_EQUAL_TO | RBITSHIFT | RBITSHIFT_EQUALS
  | TILDA | TILDA_EQUALS
  | DOT | DDOT | ELLIPSIS
  | COLON | COLON_COLON
  | QUESTION | ATSIGN
  | FUNC | EXPORT | MUTABLE | CONST | DEFER | IF | ELSE | INLINE
  | BREAK | CONTINUE | RETURN | MATCH | TOK_TRUE | UNREACHABLE
deriving DecidableEq, Repr

/-- A lexical token: kind, the location fields recorded by the lexer
(`offset`, `lineno`, `colno`), and the textual value as a byte list.
The `fname` field of the C struct is a constant for a unit and is omitted. -/
structure Token where
  kind : TokenKind
  offset : Nat
  lineno : Nat
  colno : Nat
  value : List Nat
deriving DecidableEq, Repr

/-- Modelled from the spec: `token_toString` (external to src) returns the
canonical lexeme of a token kind (§3.2: "For keywords and punctuation, the
value is the canonical lexeme").  Its exact value is determined by the kind
alone and is irrelevant to every claim, so it is modelled as the empty byte
list for every kind. -/
def token_toString (_ : TokenKind) : List Nat := []

/-- Byte read from the buffer; out-of-range reads give the C string's NUL
terminator, 0. -/
def bget (B : List Nat) (i : Nat) : Nat := B.getD i 0

/-- The mutable lexer fields: `offset`, `lineno`, `colno` and the output
token vector.  The buffer itself is immutable and passed separately. -/
structure LexState where
  offset : Nat
  lineno : Nat
  colno : Nat
  tokens : List Token
deriving Repr

/-- lexer_advance: returns the current character and moves one forward,
bumping the column; at or past the end of the buffer it returns `nullchar`
and leaves the state unchanged. -/
def lexer_advance (B : List Nat) (st : LexState) : Nat × LexState :=
  if B.length ≤ st.offset then (0, st)
  else (bget B st.offset, { st with colno := st.colno + 1, offset := st.offset + 1 })

/-- lexer_advancen: advance `n` characters; note the source's `>=` guard,
which refuses to advance when `offset + n` is not strictly below the
capacity (the returned character is unused by the callers we model). -/
def lexer_advancen (B : List Nat) (st : LexState) (n : Nat) : LexState :=
  if B.length ≤ st.offset + n then st
  else { st with offset := st.offset + n, colno := st.colno + n }

/-- lexer_peek: the current character, without bounds check in the source;
reading the NUL terminator at the end is modelled by `bget`. -/
def lexer_peek (B : List Nat) (st : LexState) : Nat := bget B st.offset

/-- Modelled from the spec: the `LEXER_INCREMENT_OFFSET` macro of lexer.h
(absent from src); it advances one byte, tracking the column exactly like
`lexer_advance`'s bookkeeping. -/
def incOffset (st : LexState) : LexState :=
  { st with offset := st.offset + 1, colno := st.colno + 1 }

/-- lexer_maketoken: append a token of the given kind, recording the
lexer's current offset/line/column. -/
def lexer_maketoken (st : LexState) (k : TokenKind) : LexState :=
  { st with tokens := st.tokens ++ [⟨k, st.offset, st.lineno, st.colno, token_toString k⟩] }

/-- lexer_makestrtoken: append a STRING token with an explicit value. -/
def lexer_makestrtoken (st : LexState) (v : List Nat) : LexState :=
  { st with tokens := st.tokens ++ [⟨.STRING, st.offset, st.lineno, st.colno, v⟩] }

/-- lexer_makeidenttoken: append an IDENTIFIER token with an explicit value. -/
def lexer_makeidenttoken (st : LexState) (v : List Nat) : LexState :=
  { st with tokens := st.tokens ++ [⟨.IDENTIFIER, st.offset, st.lineno, st.colno, v⟩] }

/-- The `WHITESPACE_NO_NEWLINE` cases: space, carriage return, tab. -/
def isWhitespaceNN (c : Nat) : Bool := c = 32 || c = 13 || c = 9

/-- The `ALPHA` cases: ASCII letters. -/
def isAlphaByte (c : Nat) : Bool := (97 ≤ c && c ≤ 122) || (65 ≤ c && c ≤ 90)

/-- The `DIGIT_NON_ZERO` cases: `1`..`9` (the source deliberately leaves
`0` out of the digit dispatch). -/
def isDigitNZ (c : Nat) : Bool := 49 ≤ c && c ≤ 57

/-- Modelled from the spec: `isLetter` from the core character library
(absent from src); §4.1 accumulates identifiers over ASCII alphanumerics
and `_`, so letters and underscore. -/
def isLetter (c : Nat) : Bool := isAlphaByte c || c = 95

/-- Modelled from the spec: `isDigit` from the core character library
(absent from src): ASCII decimal digits. -/
def isDigit (c : Nat) : Bool := 48 ≤ c && c ≤ 57

/-- Modelled from the spec: `substr` from the core string library (absent
from src): copy `len` bytes of the buffer starting at index `start`.  The
index is an `Int` because `lexer_lex_identifier` can pass `-1`
(an out-of-buffer read in C; modelled as the byte 0). -/
def substr (B : List Nat) (start : Int) (len : Nat) : List Nat :=
  (List.range len).map (fun j =>
    let i : Int := start + (j : Int)
    if i < 0 then 0 else bget B i.toNat)

/-- The loop of lexer_lex_sl_comment: `while(ch && ch != '\n') ch = advance`. -/
def slLoop (B : List Nat) : Nat → Nat → LexState → Option LexState
  | 0, _, _ => none
  | f + 1, ch, st =>
    if ch ≠ 0 ∧ ch ≠ 10 then
      let p := lexer_advance B st
      slLoop B f p.1 p.2
    else some st

/-- lexer_lex_sl_comment: discard characters to the end of the line. -/
def lexer_lex_sl_comment (B : List Nat) (f : Nat) (st : LexState) : Option LexState :=
  let p := lexer_advance B st
  slLoop B f p.1 p.2

/-- The inner loop of lexer_lex_ml_comment: `while(ch && ch != '*') ch = advance`. -/
def mlInner (B : List Nat) : Nat → Nat → LexState → Option (Nat × LexState)
  | 0, _, _ => none
  | f + 1, ch, st =>
    if ch ≠ 0 ∧ ch ≠ 42 then
      let p := lexer_advance B st
      mlInner B f p.1 p.2
    else some (ch, st)

/-- The outer loop of lexer_lex_ml_comment. -/
def mlOuter (B : List Nat) : Nat → Nat → Bool → LexState → Option (Nat × LexState)
  | 0, _, _, _ => none
  | f + 1, ch, found, st =>
    if ch ≠ 0 ∧ ¬(ch = 47 ∧ found) then
      match mlInner B f ch st with
      | none => none
      | some (c2, st2) =>
        let found2 : Bool := c2 = 42
        let p := lexer_advance B st2
        mlOuter B f p.1 found2 p.2
    else some (ch, st)

/-- lexer_lex_ml_comment: discard a multi-line comment (no nesting), with a
final advance past the closing slash. -/
def lexer_lex_ml_comment (B : List Nat) (f : Nat) (st : LexState) : Option LexState :=
  let p := lexer_advance B st
  match mlOuter B f p.1 false p.2 with
  | none => none
  | some (_, st2) => some (lexer_advance B st2).2

/-- The accumulation loop of lexer_lex_identifier:
`while(isLetter(ch) || isDigit(ch)) ch = advance`. -/
def identLoop (B : List Nat) : Nat → Nat → LexState → Option (Nat × LexState)
  | 0, _, _ => none
  | f + 1, ch, st =>
    if isLetter ch || isDigit ch then
      let p := lexer_advance B st
      identLoop B f p.1 p.2
    else some (ch, st)

/-- lexer_lex_identifier: scan an identifier.  Entered after the main loop
has already consumed the first character; the first `advance` here consumes
one more, and the value is the substring from `prev_offset - 1` of length
`offset - prev_offset` (the CSTL_CHECK_NE assertion on a zero length is
modelled as an abort, `none`). -/
def lexer_lex_identifier (B : List Nat) (f : Nat) (st : LexState) : Option LexState :=
  let p := lexer_advance B st
  let prev : Nat := p.2.offset - 1
  match identLoop B f p.1 p.2 with
  | none => none
  | some (_, st2) =>
    let diff := st2.offset - prev
    if diff = 0 then none
    else some (lexer_makeidenttoken st2 (substr B ((prev : Int) - 1) diff))

/-- The digit loop of lexer_lex_digit: `while(isDigit(ch)) ch = advance`. -/
def digitLoop (B : List Nat) : Nat → Nat → LexState → Option (Nat × LexState)
  | 0, _, _ => none
  | f + 1, ch, st =>
    if isDigit ch then
      let p := lexer_advance B st
      digitLoop B f p.1 p.2
    else some (ch, st)

/-- lexer_lex_digit: scan a run of digits and emit an INTEGER token (the
source records no value for it beyond the canonical kind string). -/
def lexer_lex_digit (B : List Nat) (f : Nat) (st : LexState) : Option LexState :=
  let ch := bget B st.offset
  match digitLoop B f ch st with
  | none => none
  | some (_, st2) => some (lexer_maketoken st2 .INTEGER)

/-- lexer_lex_esc_char has an empty body in the source: it changes nothing. -/
def lexer_lex_esc_char (st : LexState) : LexState := st

/-- The scan loop of lexer_lex_string: `while(ch != '"')`, where a
backslash invokes the (empty) escape scanner without consuming anything and
every other character is skipped by `advance`.  Reaching the end of the
buffer keeps producing `nullchar`, which is not a quote, so the loop can
run forever; fuel expiry (`none`) models that. -/
def strLoop (B : List Nat) : Nat → Nat → LexState → Option (Nat × LexState)
  | 0, _, _ => none
  | f + 1, ch, st =>
    if ch ≠ 34 then
      if ch = 92 then strLoop B f ch (lexer_lex_esc_char st)
      else
        let p := lexer_advance B st
        strLoop B f p.1 p.2
    else some (ch, st)

/-- lexer_lex_string: scan a non-empty string literal.  The two
CSTL_CHECK assertions (current char is not a quote on entry; non-zero
length) are modelled as aborts (`none`) when violated. -/
def lexer_lex_string (B : List Nat) (f : Nat) (st : LexState) : Option LexState :=
  if bget B st.offset = 34 then none
  else
    let p := lexer_advance B st
    let prev : Nat := p.2.offset - 1
    match strLoop B f p.1 p.2 with
    | none => none
    | some (ch2, st2) =>
      if ch2 = 34 then
        let diff := st2.offset - prev
        if diff = 0 then none
        else some (lexer_makestrtoken st2 (substr B (prev : Int) (diff - 1)))
      else none

/-- One dispatch decision of the main loop of lexer_lex: the advance, the
peek, and the full `switch(curr)`, returning which action the iteration
takes and the state at the point the action starts.  `emit` covers every
branch that falls through to `lexer_maketoken(lexer, tokenkind)` with a
kind other than `-1`, including the `default:` branch, which reports the
invalid character on stderr but leaves `tokenkind` as `TOK_ILLEGAL`. -/
inductive LexStep where
  | toEof (st : LexState)
  | skip (st : LexState)
  | emit (k : TokenKind) (st : LexState)
  | identS (st : LexState)
  | digitS (st : LexState)
  | strS (st : LexState)
  | strEmpty (st : LexState)
  | slcS (st : LexState)
  | mlcS (st : LexState)

/-- Lookup of a byte in a flat dispatch table; the tables below list the
cases of the main `switch` of lexer_lex. -/
def tblFind {α : Type} (c : Nat) : List (Nat × α) → Option α
  | [] => none
  | p :: rest => if c = p.1 then some p.2 else tblFind c rest

/-- The single-character punctuation cases of the switch: `;` `,` `\\` `[`
`]` `{` `}` `(` `)` `?` `@` — no lookahead, token emitted at the
post-advance position. -/
def simpleOps : List (Nat × TokenKind) :=
  [(59, .SEMICOLON), (44, .COMMA), (92, .BACKSLASH), (91, .LSQUAREBRACK),
   (93, .RSQUAREBRACK), (123, .LBRACE), (125, .RBRACE), (40, .LPAREN),
   (41, .RPAREN), (63, .QUESTION), (64, .ATSIGN)]

/-- A two-character operator family: the inner `switch(next)` cases that
skip the second character via LEXER_INCREMENT_OFFSET, and the
single-character default kind. -/
structure OpFamily where
  pairs : List (Nat × TokenKind)
  dflt : TokenKind

/-- The two-character operator families of the switch, keyed by `curr`:
`=` `+` `-` `*` `!` `%` `&` `|` `^` `~` `:`.  The `!` family's default is
`MINUS_MINUS`, exactly as in the source (case `'!'`, `default:` branch). -/
def opFamilies : List (Nat × OpFamily) :=
  [(61, ⟨[(61, .EQUALS_EQUALS), (62, .EQUALS_ARROW)], .EQUALS⟩),
   (43, ⟨[(43, .PLUS_PLUS), (61, .PLUS_EQUALS)], .PLUS⟩),
   (45, ⟨[(45, .MINUS_MINUS), (61, .MINUS_EQUALS), (62, .RARROW)], .MINUS⟩),
   (42, ⟨[(42, .MULT_MULT), (61, .MULT_EQUALS)], .MULT⟩),
   (33, ⟨[(61, .EXCLAMATION_EQUALS)], .MINUS_MINUS⟩),
   (37, ⟨[(37, .MOD_MOD), (61, .MOD_EQUALS)], .MOD⟩),
   (38, ⟨[(38, .AND_AND), (94, .AND_NOT), (61, .AND_EQUALS)], .AND⟩),
   (124, ⟨[(124, .OR_OR), (61, .OR_EQUALS)], .OR⟩),
   (94, ⟨[(61, .XOR_EQUALS)], .XOR⟩),
   (126, ⟨[(61, .TILDA_EQUALS)], .TILDA⟩),
   (58, ⟨[(58, .COLON_COLON)], .COLON⟩)]

/-- A three-character operator family (`<` `>` `.`): when `next` repeats
the distinguishing character (`second`), the source skips it and peeks
once more: `third` yields the three-character kind `k3` (with one more
skip), anything else the two-character kind `k2`; other `next` values are
ordinary two-character cases (`pairs`), and otherwise the single-character
default. -/
structure Op3 where
  second : Nat
  third : Nat
  k3 : TokenKind
  k2 : TokenKind
  pairs : List (Nat × TokenKind)
  dflt : TokenKind

/-- The three-character families of the switch: `<` (`<=` `<-` `<<` `<<=`),
`>` (`>=` `>>` `>>=`), `.` (`..` `...`). -/
def op3s : List (Nat × Op3) :=
  [(60, ⟨60, 61, .LBITSHIFT_EQUALS, .LBITSHIFT,
         [(61, .LESS_THAN_OR_EQUAL_TO), (45, .LARROW)], .LESS_THAN⟩),
   (62, ⟨62, 61, .RBITSHIFT_EQUALS, .RBITSHIFT,
         [(61, .GREATER_THAN_OR_EQUAL_TO)], .GREATER_THAN⟩),
   (46, ⟨46, 46, .ELLIPSIS, .DDOT, [], .DOT⟩)]

/-- The action a main-loop iteration takes, as a function of the three
bytes the source can examine (`curr`, `next`, and the one further peek the
`<` `>` `.` cases make): `shEmit0 k` emits `k` at the post-advance
position, `shEmit1`/`shEmit2` after one/two extra LEXER_INCREMENT_OFFSET
skips. -/
inductive StepShape where
  | shEof
  | shSkip
  | shNewline
  | shIdent
  | shDigit
  | shStrEmpty
  | shStr
  | shSlc
  | shMlc
  | shEmit0 (k : TokenKind)
  | shEmit1 (k : TokenKind)
  | shEmit2 (k : TokenKind)
deriving DecidableEq

/-- The decision of the main `switch(curr)` of lexer_lex, purely on the
peeked bytes.  The `switch` cases are mutually exclusive, so testing the
character classes first and then the three case tables decides exactly the
case the source takes; a byte matching no case is the `default:` branch,
which reports to stderr but leaves `tokenkind` at `TOK_ILLEGAL`, which the
loop tail then appends. -/
def shapeOf (curr next next2 : Nat) : StepShape :=
  if curr = 0 then .shEof
  else if isWhitespaceNN curr then .shSkip
  else if curr = 10 then .shNewline
  else if isAlphaByte curr || curr = 95 then .shIdent
  else if isDigitNZ curr then .shDigit
  else if curr = 34 then (if next = 34 then .shStrEmpty else .shStr)
  else if curr = 47 then
    (if next = 47 then .shSlc
     else if next = 42 then .shMlc
     else if next = 61 then .shEmit1 .SLASH_EQUALS
     else .shEmit0 .SLASH)
  else if curr = 35 then .shEmit1 .HASH_SIGN
  else match tblFind curr simpleOps with
  | some k => .shEmit0 k
  | none =>
    match tblFind curr opFamilies with
    | some fam =>
      (match tblFind next fam.pairs with
       | some k => .shEmit1 k
       | none => .shEmit0 fam.dflt)
    | none =>
      match tblFind curr op3s with
      | some o =>
        if next = o.second then
          (if next2 = o.third then .shEmit2 o.k3 else .shEmit1 o.k2)
        else
          (match tblFind next o.pairs with
           | some k => .shEmit1 k
           | none => .shEmit0 o.dflt)
      | none => .shEmit0 .TOK_ILLEGAL

/-- Apply a dispatch decision at the post-advance state `st1`. -/
def applyShape (sh : StepShape) (st1 : LexState) : LexStep :=
  match sh with
  | .shEof => .toEof st1
  | .shSkip => .skip st1
  | .shNewline => .skip { st1 with lineno := st1.lineno + 1, colno := 1 }
  | .shIdent => .identS st1
  | .shDigit => .digitS st1
  | .shStrEmpty => .strEmpty st1
  | .shStr => .strS st1
  | .shSlc => .slcS st1
  | .shMlc => .mlcS st1
  | .shEmit0 k => .emit k st1
  | .shEmit1 k => .emit k (incOffset st1)
  | .shEmit2 k => .emit k (incOffset (incOffset st1))

/-- The branch dispatch of lexer_lex's main loop: advance once, peek, and
take the switch branch.  The second peek `bget B (st1.offset + 1)` is the
`lexer_peek` the `<` `>` `.` cases perform after their
LEXER_INCREMENT_OFFSET. -/
def lexDispatch (B : List Nat) (st : LexState) : LexStep :=
  let a := lexer_advance B st
  let st1 := a.2
  applyShape (shapeOf a.1 (lexer_peek B st1) (bget B (st1.offset + 1))) st1

/-- The main loop of lexer_lex.  A `strEmpty` step is the inline `""`
branch: it skips the closing quote, appends a STRING token whose value is
the two quote characters, and — because that branch never resets
`tokenkind` from its iteration-initial `TOK_ILLEGAL` — falls through to
append an ILLEGAL token as well.  At `nullchar` the loop jumps to
`lex_eof` and appends the single EOF token. -/
def lexLoop (B : List Nat) : Nat → LexState → Option (List Token)
  | 0, _ => none
  | f + 1, st =>
    match lexDispatch B st with
    | .toEof st1 => some (lexer_maketoken st1 .TOK_EOF).tokens
    | .skip st1 => lexLoop B f st1
    | .emit k st1 => lexLoop B f (lexer_maketoken st1 k)
    | .identS st1 =>
      match lexer_lex_identifier B f st1 with
      | none => none
      | some st2 => lexLoop B f st2
    | .digitS st1 =>
      match lexer_lex_digit B f st1 with
      | none => none
      | some st2 => lexLoop B f st2
    | .strS st1 =>
      match lexer_lex_string B f st1 with
      | none => none
      | some st2 => lexLoop B f st2
    | .strEmpty st1 =>
      let st2 := lexer_makestrtoken (incOffset st1) [34, 34]
      lexLoop B f (lexer_maketoken st2 .TOK_ILLEGAL)
    | .slcS st1 =>
      match lexer_lex_sl_comment B f st1 with
      | none => none
      | some st2 => lexLoop B f st2
    | .mlcS st1 =>
      match lexer_lex_ml_comment B f st1 with
      | none => none
      | some st2 => lexLoop B f st2

/-- lexer_lex: initialize the state as lexer_init does (offset 0, line 1,
column 1, no tokens), skip a UTF-8 BOM `EF BB BF` via `lexer_advancen 3`
when the first three bytes match, then run the main loop. -/
def lexer_lex (B : List Nat) (fuel : Nat) : Option (List Token) :=
  let st0 : LexState := ⟨0, 1, 1, []⟩
  let st1 := if bget B 0 = 239 ∧ bget B 1 = 187 ∧ bget B 2 = 191 then
    lexer_advancen B st0 3 else st0
  lexLoop B fuel st1

/-- The state carried by a dispatch decision. -/
def stepState : LexStep → LexState
  | .toEof s => s
  | .skip s => s
  | .emit _ s => s
  | .identS s => s
  | .digitS s => s
  | .strS s => s
  | .strEmpty s => s
  | .slcS s => s
  | .mlcS s => s

@[simp] theorem lexer_advance_tokens (B : List Nat) (st : LexState) :
    ((lexer_advance B st).2).tokens = st.tokens := by
  unfold lexer_advance; split <;> rfl

@[simp] theorem incOffset_tokens (st : LexState) : (incOffset st).tokens = st.tokens := rfl

@[simp] theorem lexer_advancen_tokens (B : List Nat) (st : LexState) (n : Nat) :
    (lexer_advancen B st n).tokens = st.tokens := by
  unfold lexer_advancen; split <;> rfl

theorem applyShape_tokens (sh : StepShape) (st1 : LexState) :
    (stepState (applyShape sh st1)).tokens = st1.tokens := by
  cases sh <;> rfl

/-- The token kind an action emits through the loop tail, if any. -/
def shapeKind : StepShape → Option TokenKind
  | .shEmit0 k => some k
  | .shEmit1 k => some k
  | .shEmit2 k => some k
  | _ => none

theorem applyShape_emit (sh : StepShape) (st1 : LexState) (k : TokenKind) (s1 : LexState)
    (h : applyShape sh st1 = .emit k s1) : shapeKind sh = some k := by
  cases sh <;> cases h <;> rfl

theorem simpleOps_ne_eof : ∀ p ∈ simpleOps, p.2 ≠ TokenKind.TOK_EOF := by decide

theorem opFamilies_ne_eof :
    ∀ p ∈ opFamilies, p.2.dflt ≠ TokenKind.TOK_EOF ∧
      ∀ q ∈ p.2.pairs, q.2 ≠ TokenKind.TOK_EOF := by decide

theorem op3s_ne_eof :
    ∀ p ∈ op3s, p.2.k3 ≠ TokenKind.TOK_EOF ∧ p.2.k2 ≠ TokenKind.TOK_EOF ∧
      p.2.dflt ≠ TokenKind.TOK_EOF ∧ ∀ q ∈ p.2.pairs, q.2 ≠ TokenKind.TOK_EOF := by decide

theorem tblFind_mem {α : Type} (c : Nat) (x : α) :
    ∀ l : List (Nat × α), tblFind c l = some x → (c, x) ∈ l := by
  intro l
  induction l with
  | nil => intro h; cases h
  | cons p rest ih =>
    intro h
    unfold tblFind at h
    split at h
    · cases h
      rename_i hc
      subst hc
      simp
    · exact List.mem_cons_of_mem _ (ih h)

/-- No switch branch ever emits `TOK_EOF` through the loop tail: the EOF
token is appended only at `lex_eof`. -/
theorem shapeOf_ne_eof (c n n2 : Nat) : shapeKind (shapeOf c n n2) ≠ some TokenKind.TOK_EOF := by
  unfold shapeOf
  by_cases h0 : c = 0
  · rw [if_pos h0]; decide
  rw [if_neg h0]
  by_cases h1 : isWhitespaceNN c = true
  · rw [if_pos h1]; decide
  rw [if_neg h1]
  by_cases h2 : c = 10
  · rw [if_pos h2]; decide
  rw [if_neg h2]
  by_cases h3 : (isAlphaByte c || decide (c = 95)) = true
  · rw [if_pos h3]; decide
  rw [if_neg h3]
  by_cases h4 : isDigitNZ c = true
  · rw [if_pos h4]; decide
  rw [if_neg h4]
  by_cases h5 : c = 34
  · rw [if_pos h5]
    by_cases hn : n = 34
    · rw [if_pos hn]; decide
    · rw [if_neg hn]; decide
  rw [if_neg h5]
  by_cases h6 : c = 47
  · rw [if_pos h6]
    by_cases hn : n = 47
    · rw [if_pos hn]; decide
    rw [if_neg hn]
    by_cases hn2 : n = 42
    · rw [if_pos hn2]; decide
    rw [if_neg hn2]
    by_cases hn3 : n = 61
    · rw [if_pos hn3]; decide
    · rw [if_neg hn3]; decide
  rw [if_neg h6]
  by_cases h7 : c = 35
  · rw [if_pos h7]; decide
  rw [if_neg h7]
  cases hs : tblFind c simpleOps with
  | some k =>
    have hne := simpleOps_ne_eof _ (tblFind_mem c k _ hs)
    simpa [shapeKind, hs] using hne
  | none =>
    cases hf : tblFind c opFamilies with
    | some fam =>
      obtain ⟨hd, hp⟩ := opFamilies_ne_eof _ (tblFind_mem c fam _ hf)
      cases hq : tblFind n fam.pairs with
      | some k =>
        have hne := hp _ (tblFind_mem n k _ hq)
        simpa [shapeKind, hs, hf, hq] using hne
      | none =>
        simpa [shapeKind, hs, hf, hq] using hd
    | none =>
      cases h3t : tblFind c op3s with
      | some o =>
        obtain ⟨e3, e2, ed, ep⟩ := op3s_ne_eof _ (tblFind_mem c o _ h3t)
        by_cases hsec : n = o.second
        · by_cases hth : n2 = o.third
          · simpa [shapeKind, hs, hf, h3t, hsec, hth] using e3
          · simpa [shapeKind, hs, hf, h3t, hsec, hth] using e2
        · cases hq : tblFind n o.pairs with
          | some k =>
            have hne := ep _ (tblFind_mem n k _ hq)
            simpa [shapeKind, hs, hf, h3t, hsec, hq] using hne
          | none =>
            simpa [shapeKind, hs, hf, h3t, hsec, hq] using ed
      | none =>
        simp [shapeKind, hs, hf, h3t]

theorem lexDispatch_tokens (B : List Nat) (st : LexState) :
    (stepState (lexDispatch B st)).tokens = st.tokens := by
  unfold lexDispatch
  rw [applyShape_tokens]
  exact lexer_advance_tokens B st

theorem lexDispatch_emit_ne_eof (B : List Nat) (st : LexState) :
    ∀ k s1, lexDispatch B st = .emit k s1 → k ≠ .TOK_EOF := by
  intro k s1 h
  unfold lexDispatch at h
  have hk := applyShape_emit _ _ _ _ h
  intro he
  subst he
  exact shapeOf_ne_eof _ _ _ hk


theorem identLoop_tokens (B : List Nat) :
    ∀ f ch st c2 st2, identLoop B f ch st = some (c2, st2) → st2.tokens = st.tokens := by
  intro f
  induction f with
  | zero => intro ch st c2 st2 h; simp [identLoop] at h
  | succ f ih =>
    intro ch st c2 st2 h
    unfold identLoop at h
    split at h
    · have := ih _ _ _ _ h
      simpa using this
    · cases h; rfl

theorem digitLoop_tokens (B : List Nat) :
    ∀ f ch st c2 st2, digitLoop B f ch st = some (c2, st2) → st2.tokens = st.tokens := by
  intro f
  induction f with
  | zero => intro ch st c2 st2 h; simp [digitLoop] at h
  | succ f ih =>
    intro ch st c2 st2 h
    unfold digitLoop at h
    split at h
    · have := ih _ _ _ _ h
      simpa using this
    · cases h; rfl

theorem strLoop_tokens (B : List Nat) :
    ∀ f ch st c2 st2, strLoop B f ch st = some (c2, st2) → st2.tokens = st.tokens := by
  intro f
  induction f with
  | zero => intro ch st c2 st2 h; simp [strLoop] at h
  | succ f ih =>
    intro ch st c2 st2 h
    unfold strLoop at h
    split at h
    · split at h
      · exact ih _ _ _ _ h
      · have := ih _ _ _ _ h
        simpa using this
    · cases h; rfl

theorem slLoop_tokens (B : List Nat) :
    ∀ f ch st st2, slLoop B f ch st = some st2 → st2.tokens = st.tokens := by
  intro f
  induction f with
  | zero => intro ch st st2 h; simp [slLoop] at h
  | succ f ih =>
    intro ch st st2 h
    unfold slLoop at h
    split at h
    · have := ih _ _ _ h
      simpa using this
    · cases h; rfl

theorem mlInner_tokens (B : List Nat) :
    ∀ f ch st c2 st2, mlInner B f ch st = some (c2, st2) → st2.tokens = st.tokens := by
  intro f
  induction f with
  | zero => intro ch st c2 st2 h; simp [mlInner] at h
  | succ f ih =>
    intro ch st c2 st2 h
    unfold mlInner at h
    split at h
    · have := ih _ _ _ _ h
      simpa using this
    · cases h; rfl

theorem mlOuter_tokens (B : List Nat) :
    ∀ f ch found st c2 st2, mlOuter B f ch found st = some (c2, st2) → st2.tokens = st.tokens := by
  intro f
  induction f with
  | zero => intro ch found st c2 st2 h; simp [mlOuter] at h
  | succ f ih =>
    intro ch found st c2 st2 h
    unfold mlOuter at h
    split at h
    · cases hi : mlInner B f ch st with
      | none => rw [hi] at h; cases h
      | some p =>
        rw [hi] at h
        have h1 := mlInner_tokens B f ch st p.1 p.2 (by rw [hi])
        have h2 := ih _ _ _ _ _ h
        rw [h2]
        simpa using h1
    · cases h; rfl

theorem lexer_lex_identifier_tokens (B : List Nat) (f : Nat) (st st2 : LexState)
    (h : lexer_lex_identifier B f st = some st2) :
    ∃ t : Token, st2.tokens = st.tokens ++ [t] ∧ t.kind = .IDENTIFIER := by
  unfold lexer_lex_identifier at h
  dsimp only at h
  cases hl : identLoop B f (lexer_advance B st).1 (lexer_advance B st).2 with
  | none => rw [hl] at h; cases h
  | some p =>
    obtain ⟨c2, s2⟩ := p
    rw [hl] at h
    dsimp only at h
    have hp : s2.tokens = st.tokens := by
      have := identLoop_tokens B f _ _ c2 s2 hl
      simpa using this
    split at h
    · cases h
    · cases h
      simp only [lexer_makeidenttoken, hp]
      exact ⟨_, rfl, rfl⟩

theorem lexer_lex_digit_tokens (B : List Nat) (f : Nat) (st st2 : LexState)
    (h : lexer_lex_digit B f st = some st2) :
    ∃ t : Token, st2.tokens = st.tokens ++ [t] ∧ t.kind = .INTEGER := by
  unfold lexer_lex_digit at h
  dsimp only at h
  cases hl : digitLoop B f (bget B st.offset) st with
  | none => rw [hl] at h; cases h
  | some p =>
    obtain ⟨c2, s2⟩ := p
    rw [hl] at h
    dsimp only at h
    have hp : s2.tokens = st.tokens := digitLoop_tokens B f _ _ c2 s2 hl
    cases h
    simp only [lexer_maketoken, hp]
    exact ⟨_, rfl, rfl⟩

theorem lexer_lex_string_tokens (B : List Nat) (f : Nat) (st st2 : LexState)
    (h : lexer_lex_string B f st = some st2) :
    ∃ t : Token, st2.tokens = st.tokens ++ [t] ∧ t.kind = .STRING := by
  unfold lexer_lex_string at h
  dsimp only at h
  split at h
  · cases h
  · cases hl : strLoop B f (lexer_advance B st).1 (lexer_advance B st).2 with
    | none => rw [hl] at h; cases h
    | some p =>
      obtain ⟨c2, s2⟩ := p
      rw [hl] at h
      dsimp only at h
      have hp : s2.tokens = st.tokens := by
        have := strLoop_tokens B f _ _ c2 s2 hl
        simpa using this
      split at h
      · split at h
        · cases h
        · cases h
          simp only [lexer_makestrtoken, hp]
          exact ⟨_, rfl, rfl⟩
      · cases h

theorem lexer_lex_sl_comment_tokens (B : List Nat) (f : Nat) (st st2 : LexState)
    (h : lexer_lex_sl_comment B f st = some st2) : st2.tokens = st.tokens := by
  unfold lexer_lex_sl_comment at h
  dsimp only at h
  have := slLoop_tokens B f _ _ _ h
  simpa using this

theorem lexer_lex_ml_comment_tokens (B : List Nat) (f : Nat) (st st2 : LexState)
    (h : lexer_lex_ml_comment B f st = some st2) : st2.tokens = st.tokens := by
  unfold lexer_lex_ml_comment at h
  dsimp only at h
  cases hl : mlOuter B f (lexer_advance B st).1 false (lexer_advance B st).2 with
  | none => rw [hl] at h; cases h
  | some p =>
    obtain ⟨c2, s2⟩ := p
    rw [hl] at h
    dsimp only at h
    cases h
    have hp := mlOuter_tokens B f _ false _ c2 s2 hl
    simp only [lexer_advance_tokens]
    rw [hp]
    simp

/-- Shape of every completed run of the main loop: the output is the
tokens accumulated so far, then some newly produced tokens none of which
is EOF, then exactly one final EOF token. -/
theorem lexLoop_shape (B : List Nat) :
    ∀ f st out, lexLoop B f st = some out →
      ∃ pre last, out = st.tokens ++ pre ++ [last] ∧ last.kind = .TOK_EOF ∧
        ∀ t ∈ pre, t.kind ≠ .TOK_EOF := by
  intro f
  induction f with
  | zero => intro st out h; simp [lexLoop] at h
  | succ f ih =>
    intro st out h
    unfold lexLoop at h
    cases hd : lexDispatch B st with
    | toEof st1 =>
      rw [hd] at h
      dsimp only at h
      cases h
      have hst1 : st1.tokens = st.tokens := by
        have := lexDispatch_tokens B st; rw [hd] at this; exact this
      refine ⟨[], ⟨.TOK_EOF, st1.offset, st1.lineno, st1.colno, token_toString .TOK_EOF⟩,
        ?_, rfl, by simp⟩
      simp [lexer_maketoken, hst1]
    | skip st1 =>
      rw [hd] at h
      dsimp only at h
      have hst1 : st1.tokens = st.tokens := by
        have := lexDispatch_tokens B st; rw [hd] at this; exact this
      obtain ⟨pre, last, h1, h2, h3⟩ := ih st1 out h
      exact ⟨pre, last, by rw [h1, hst1], h2, h3⟩
    | emit k st1 =>
      rw [hd] at h
      dsimp only at h
      have hst1 : st1.tokens = st.tokens := by
        have := lexDispatch_tokens B st; rw [hd] at this; exact this
      have hk : k ≠ .TOK_EOF := lexDispatch_emit_ne_eof B st k st1 hd
      obtain ⟨pre, last, h1, h2, h3⟩ := ih _ out h
      refine ⟨⟨k, st1.offset, st1.lineno, st1.colno, token_toString k⟩ :: pre, last, ?_, h2, ?_⟩
      · rw [h1]; simp [lexer_maketoken, hst1]
      · intro t ht
        rcases List.mem_cons.1 ht with rfl | hmem
        · simpa using hk
        · exact h3 t hmem
    | identS st1 =>
      rw [hd] at h
      dsimp only at h
      have hst1 : st1.tokens = st.tokens := by
        have := lexDispatch_tokens B st; rw [hd] at this; exact this
      cases hid : lexer_lex_identifier B f st1 with
      | none => rw [hid] at h; cases h
      | some st2 =>
        rw [hid] at h
        obtain ⟨t, hts, htk⟩ := lexer_lex_identifier_tokens B f st1 st2 hid
        obtain ⟨pre, last, h1, h2, h3⟩ := ih st2 out h
        refine ⟨t :: pre, last, ?_, h2, ?_⟩
        · rw [h1, hts, hst1]; simp
        · intro u hu
          rcases List.mem_cons.1 hu with rfl | hmem
          · simp [htk]
          · exact h3 u hmem
    | digitS st1 =>
      rw [hd] at h
      dsimp only at h
      have hst1 : st1.tokens = st.tokens := by
        have := lexDispatch_tokens B st; rw [hd] at this; exact this
      cases hid : lexer_lex_digit B f st1 with
      | none => rw [hid] at h; cases h
      | some st2 =>
        rw [hid] at h
        obtain ⟨t, hts, htk⟩ := lexer_lex_digit_tokens B f st1 st2 hid
        obtain ⟨pre, last, h1, h2, h3⟩ := ih st2 out h
        refine ⟨t :: pre, last, ?_, h2, ?_⟩
        · rw [h1, hts, hst1]; simp
        · intro u hu
          rcases List.mem_cons.1 hu with rfl | hmem
          · simp [htk]
          · exact h3 u hmem
    | strS st1 =>
      rw [hd] at h
      dsimp only at h
      have hst1 : st1.tokens = st.tokens := by
        have := lexDispatch_tokens B st; rw [hd] at this; exact this
      cases hid : lexer_lex_string B f st1 with
      | none => rw [hid] at h; cases h
      | some st2 =>
        rw [hid] at h
        obtain ⟨t, hts, htk⟩ := lexer_lex_string_tokens B f st1 st2 hid
        obtain ⟨pre, last, h1, h2, h3⟩ := ih st2 out h
        refine ⟨t :: pre, last, ?_, h2, ?_⟩
        · rw [h1, hts, hst1]; simp
        · intro u hu
          rcases List.mem_cons.1 hu with rfl | hmem
          · simp [htk]
          · exact h3 u hmem
    | strEmpty st1 =>
      rw [hd] at h
      dsimp only at h
      have hst1 : st1.tokens = st.tokens := by
        have := lexDispatch_tokens B st; rw [hd] at this; exact this
      obtain ⟨pre, last, h1, h2, h3⟩ := ih _ out h
      refine ⟨⟨.STRING, (incOffset st1).offset, (incOffset st1).lineno, (incOffset st1).colno,
          [34, 34]⟩ ::
        ⟨.TOK_ILLEGAL, (incOffset st1).offset, (incOffset st1).lineno, (incOffset st1).colno,
          token_toString .TOK_ILLEGAL⟩ :: pre, last, ?_, h2, ?_⟩
      · rw [h1]
        simp [lexer_maketoken, lexer_makestrtoken, incOffset, hst1]
      · intro u hu
        rcases List.mem_cons.1 hu with rfl | hu2
        · simp
        rcases List.mem_cons.1 hu2 with rfl | hu3
        · simp
        · exact h3 u hu3
    | slcS st1 =>
      rw [hd] at h
      dsimp only at h
      have hst1 : st1.tokens = st.tokens := by
        have := lexDispatch_tokens B st; rw [hd] at this; exact this
      cases hid : lexer_lex_sl_comment B f st1 with
      | none => rw [hid] at h; cases h
      | some st2 =>
        rw [hid] at h
        have hts := lexer_lex_sl_comment_tokens B f st1 st2 hid
        obtain ⟨pre, last, h1, h2, h3⟩ := ih st2 out h
        exact ⟨pre, last, by rw [h1, hts, hst1], h2, h3⟩
    | mlcS st1 =>
      rw [hd] at h
      dsimp only at h
      have hst1 : st1.tokens = st.tokens := by
        have := lexDispatch_tokens B st; rw [hd] at this; exact this
      cases hid : lexer_lex_ml_comment B f st1 with
      | none => rw [hid] at h; cases h
      | some st2 =>
        rw [hid] at h
        have hts := lexer_lex_ml_comment_tokens B f st1 st2 hid
        obtain ⟨pre, last, h1, h2, h3⟩ := ih st2 out h
        exact ⟨pre, last, by rw [h1, hts, hst1], h2, h3⟩

/-- Both initial states of lexer_lex (BOM skipped or not) start with an
empty token vector. -/
theorem lexer_lex_init_tokens (B : List Nat) :
    (if bget B 0 = 239 ∧ bget B 1 = 187 ∧ bget B 2 = 191 then
      lexer_advancen B ⟨0, 1, 1, []⟩ 3 else (⟨0, 1, 1, []⟩ : LexState)).tokens = [] := by
  split
  · simp
  · rfl

/-- C1, amended main theorem: for every source buffer, whenever lexing
completes, the produced token list ends with exactly one EOF token and no
tokens follow it (`pre` is everything before the final token, and no EOF
occurs in it).  The original claim's additional "no ILLEGAL tokens" part
is refuted by `C1_counterexample`: the invalid-character branch and the
empty-string-literal branch append ILLEGAL tokens. -/
theorem C1_lex_ends_in_unique_eof (B : List Nat) (fuel : Nat) (out : List Token)
    (h : lexer_lex B fuel = some out) :
    ∃ pre last, out = pre ++ [last] ∧ last.kind = .TOK_EOF ∧
      ∀ t ∈ pre, t.kind ≠ .TOK_EOF := by
  unfold lexer_lex at h
  dsimp only at h
  obtain ⟨pre, last, h1, h2, h3⟩ := lexLoop_shape B fuel _ out h
  rw [lexer_lex_init_tokens] at h1
  exact ⟨pre, last, by simpa using h1, h2, h3⟩

/-- Witness for C1 at the concrete buffer `;`. -/
theorem C1_lex_ends_in_unique_eof_witness :
    ∃ pre last,
      ([⟨.SEMICOLON, 1, 1, 2, []⟩, ⟨.TOK_EOF, 1, 1, 2, []⟩] : List Token) = pre ++ [last] ∧
      last.kind = .TOK_EOF ∧ ∀ t ∈ pre, t.kind ≠ .TOK_EOF :=
  C1_lex_ends_in_unique_eof [59] 5 _ rfl

/-- C1, counterexample to the claim as stated: lexing the buffer `$`
completes, yet the result contains a token of kind ILLEGAL — the
`default:` branch of the switch reports the invalid character but leaves
`tokenkind` at `TOK_ILLEGAL`, which the loop tail appends. -/
theorem C1_counterexample :
    ∃ out, lexer_lex [36] 10 = some out ∧ ∃ t ∈ out, t.kind = .TOK_ILLEGAL :=
  ⟨[⟨.TOK_ILLEGAL, 1, 1, 2, []⟩, ⟨.TOK_EOF, 1, 1, 2, []⟩], rfl,
    ⟨.TOK_ILLEGAL, 1, 1, 2, []⟩, by simp, rfl⟩

/-- C2 (code bug): on the buffer `$;`, whose first byte is an invalid
character, the lexer does not abort the unit: it appends an ILLEGAL token
at the invalid character and keeps lexing, so the caller receives the full
vector `[ILLEGAL, SEMICOLON, EOF]` — further tokens after the reported
error, contradicting "no further tokens are produced and no partial token
vector is exposed". -/
theorem C2_invalid_char_does_not_abort :
    lexer_lex [36, 59] 12 =
      some [⟨.TOK_ILLEGAL, 1, 1, 2, []⟩, ⟨.SEMICOLON, 2, 1, 3, []⟩,
            ⟨.TOK_EOF, 2, 1, 3, []⟩] := rfl

/-- A letter (or underscore) always takes the identifier branch. -/
theorem shapeOf_ident (b n n2 : Nat) (hb : isLetter b = true) :
    shapeOf b n n2 = .shIdent := by
  have harith : ((97 ≤ b ∧ b ≤ 122) ∨ (65 ≤ b ∧ b ≤ 90)) ∨ b = 95 := by
    simpa [isLetter, isAlphaByte, Bool.or_eq_true, decide_eq_true_eq,
      Bool.and_eq_true] using hb
  unfold shapeOf
  rw [if_neg (by omega)]
  rw [if_neg (by simp [isWhitespaceNN]; omega)]
  rw [if_neg (by omega)]
  rw [if_pos (show (isAlphaByte b || decide (b = 95)) = true from hb)]

/-- C3, amended main theorem: the lexer performs no keyword lookup — for
every buffer whose first byte is a letter or underscore, when lexing
completes the first emitted token has kind IDENTIFIER, whatever the lexeme
(keywords included).  The keyword half of the original claim is refuted by
`C3_counterexample`. -/
theorem C3_identifiers_never_keywords (b : Nat) (rest : List Nat) (fuel : Nat)
    (out : List Token) (hb : isLetter b = true)
    (h : lexer_lex (b :: rest) fuel = some out) :
    ∃ t rest2, out = t :: rest2 ∧ t.kind = .IDENTIFIER := by
  unfold lexer_lex at h
  dsimp only at h
  have harith : ((97 ≤ b ∧ b ≤ 122) ∨ (65 ≤ b ∧ b ≤ 90)) ∨ b = 95 := by
    simpa [isLetter, isAlphaByte, Bool.or_eq_true, decide_eq_true_eq,
      Bool.and_eq_true] using hb
  rw [if_neg (by simp [bget]; omega)] at h
  cases fuel with
  | zero => simp [lexLoop] at h
  | succ f =>
    unfold lexLoop at h
    have ha : lexer_advance (b :: rest) ⟨0, 1, 1, []⟩ = (b, ⟨1, 1, 2, []⟩) := rfl
    have hd : lexDispatch (b :: rest) ⟨0, 1, 1, []⟩ = .identS ⟨1, 1, 2, []⟩ := by
      unfold lexDispatch
      rw [ha]
      dsimp only
      rw [shapeOf_ident _ _ _ hb]
      rfl
    rw [hd] at h
    dsimp only at h
    cases hid : lexer_lex_identifier (b :: rest) f ⟨1, 1, 2, []⟩ with
    | none => rw [hid] at h; cases h
    | some st2 =>
      rw [hid] at h
      obtain ⟨t, hts, htk⟩ := lexer_lex_identifier_tokens _ f _ st2 hid
      obtain ⟨pre, last, h1, _, _⟩ := lexLoop_shape _ f st2 out h
      refine ⟨t, pre ++ [last], ?_, htk⟩
      rw [h1, hts]
      simp

/-- Witness for C3 at the concrete buffer `func ` (the keyword `func`). -/
theorem C3_identifiers_never_keywords_witness :
    ∃ t rest2,
      ([⟨.IDENTIFIER, 5, 1, 6, [102, 117, 110, 99]⟩, ⟨.TOK_EOF, 5, 1, 6, []⟩] : List Token) =
        t :: rest2 ∧ t.kind = .IDENTIFIER :=
  C3_identifiers_never_keywords 102 [117, 110, 99, 32] 20 _ rfl rfl

/-- C3, counterexample to the claim as stated: `func` is a keyword of the
language, yet the lexer emits it as an IDENTIFIER token (with the lexeme
as value); no keyword token kind is ever produced. -/
theorem C3_counterexample :
    lexer_lex [102, 117, 110, 99, 32] 20 =
      some [⟨.IDENTIFIER, 5, 1, 6, [102, 117, 110, 99]⟩, ⟨.TOK_EOF, 5, 1, 6, []⟩] := rfl

/-- Helper for C5: whenever the first dispatch of a run is a plain `emit`
at the post-advance state, the first output token is exactly that token,
recorded at offset 1, line 1, column 2 — i.e. at the position after its
single-character lexeme. -/
theorem firstToken_emit (B : List Nat) (fuel : Nat) (out : List Token) (k : TokenKind)
    (h : lexer_lex B fuel = some out)
    (hbom : ¬(bget B 0 = 239 ∧ bget B 1 = 187 ∧ bget B 2 = 191))
    (hd : lexDispatch B ⟨0, 1, 1, []⟩ = .emit k ⟨1, 1, 2, []⟩) :
    ∃ rest2, out = ⟨k, 1, 1, 2, token_toString k⟩ :: rest2 := by
  unfold lexer_lex at h
  dsimp only at h
  rw [if_neg hbom] at h
  cases fuel with
  | zero => simp [lexLoop] at h
  | succ f =>
    unfold lexLoop at h
    rw [hd] at h
    dsimp only at h
    obtain ⟨pre, last, h1, _, _⟩ := lexLoop_shape B f _ out h
    refine ⟨pre ++ [last], ?_⟩
    rw [h1]
    simp [lexer_maketoken]

/-- C5, amended main theorem: for every single-character punctuation token
(the `simpleOps` table) at the start of the buffer, the recorded location
of the emitted token is offset 1, line 1, column 2 — the lexer position
immediately after the consumed lexeme — although the token's first (and
only) character sits at offset 0, column 1.  `C5_counterexample` refutes
the original claim that the location is that of the first character. -/
theorem C5_location_is_post_consumption (p : Nat) (k : TokenKind) (rest : List Nat)
    (fuel : Nat) (out : List Token) (hmem : (p, k) ∈ simpleOps)
    (h : lexer_lex (p :: rest) fuel = some out) :
    ∃ t rest2, out = t :: rest2 ∧ t.kind = k ∧ t.offset = 1 ∧ t.lineno = 1 ∧ t.colno = 2 := by
  fin_cases hmem <;>
    (obtain ⟨rest2, hout⟩ := firstToken_emit _ fuel out _ h (by simp [bget]) rfl
     exact ⟨_, rest2, hout, rfl, rfl, rfl, rfl⟩)

/-- Witness for C5 at the concrete buffer `;`. -/
theorem C5_location_is_post_consumption_witness :
    ∃ t rest2,
      ([⟨.SEMICOLON, 1, 1, 2, []⟩, ⟨.TOK_EOF, 1, 1, 2, []⟩] : List Token) = t :: rest2 ∧
      t.kind = .SEMICOLON ∧ t.offset = 1 ∧ t.lineno = 1 ∧ t.colno = 2 :=
  C5_location_is_post_consumption 59 .SEMICOLON [] 5 _ (by decide) rfl

/-- C5, counterexample to the claim as stated: the `;` of the buffer `;`
sits at offset 0, line 1, column 1, yet the recorded location of its token
is offset 1, column 2 (lexer_maketoken reads the lexer position after
lexer_advance has consumed the lexeme). -/
theorem C5_counterexample :
    lexer_lex [59] 10 = some [⟨.SEMICOLON, 1, 1, 2, []⟩, ⟨.TOK_EOF, 1, 1, 2, []⟩] := rfl

/-- On the buffer `"ab` the string scan loop never terminates: past the
opening quote every read yields `a`, `b` or the NUL terminator, never a
closing quote, and at the end of the buffer lexer_advance stops moving, so
the loop re-reads `nullchar` forever.  No fuel suffices. -/
theorem strLoop_c6_diverges :
    ∀ f ch st, ch ≠ 34 → 1 ≤ st.offset → strLoop [34, 97, 98] f ch st = none := by
  intro f
  induction f with
  | zero => intro ch st _ _; rfl
  | succ f ih =>
    intro ch st hch hoff
    unfold strLoop
    rw [if_pos hch]
    by_cases hb : ch = 92
    · rw [if_pos hb]
      exact ih ch st hch hoff
    · rw [if_neg hb]
      dsimp only
      by_cases hlen : (3 : Nat) ≤ st.offset
      · have ha : lexer_advance [34, 97, 98] st = (0, st) := by
          unfold lexer_advance
          rw [if_pos (by simpa using hlen)]
        rw [ha]
        exact ih 0 st (by decide) hoff
      · have hoff12 : st.offset = 1 ∨ st.offset = 2 := by omega
        rcases hoff12 with h1 | h2
        · have ha : lexer_advance [34, 97, 98] st =
              (97, { st with colno := st.colno + 1, offset := st.offset + 1 }) := by
            unfold lexer_advance
            rw [if_neg (by simp [h1])]
            simp [bget, h1]
          rw [ha]
          exact ih 97 _ (by decide) (by simp)
        · have ha : lexer_advance [34, 97, 98] st =
              (98, { st with colno := st.colno + 1, offset := st.offset + 1 }) := by
            unfold lexer_advance
            rw [if_neg (by simp [h2])]
            simp [bget, h2]
          rw [ha]
          exact ih 98 _ (by decide) (by simp)

/-- The string scanner diverges on `"ab` from its entry state. -/
theorem lexer_lex_string_c6_diverges (f : Nat) (st : LexState) (h1 : st.offset = 1) :
    lexer_lex_string [34, 97, 98] f st = none := by
  unfold lexer_lex_string
  rw [if_neg (by simp [bget, h1])]
  dsimp only
  have ha : lexer_advance [34, 97, 98] st =
      (97, { st with colno := st.colno + 1, offset := st.offset + 1 }) := by
    unfold lexer_advance
    rw [if_neg (by simp [h1])]
    simp [bget, h1]
  rw [ha]
  rw [strLoop_c6_diverges f 97 _ (by decide) (by simp)]

/-- C6 (code bug): on the unterminated string literal `"ab` the lexer
never terminates (for every fuel the run fails to complete): the scan loop
keeps waiting for a closing quote that never comes, and lexer_lex_esc_char
is an empty function, so no UnterminatedString or BadEscape diagnostic can
ever be produced. -/
theorem C6_unterminated_string_diverges (fuel : Nat) :
    lexer_lex [34, 97, 98] fuel = none := by
  unfold lexer_lex
  dsimp only
  cases fuel with
  | zero => rfl
  | succ f =>
    have hd : lexDispatch [34, 97, 98] ⟨0, 1, 1, []⟩ = .strS ⟨1, 1, 2, []⟩ := rfl
    show lexLoop [34, 97, 98] (f + 1) ⟨0, 1, 1, []⟩ = none
    unfold lexLoop
    rw [hd]
    dsimp only
    rw [lexer_lex_string_c6_diverges f ⟨1, 1, 2, []⟩ rfl]

/-- The UTF-8 byte-order mark `EF BB BF`. -/
def BOM : List Nat := [239, 187, 191]

/-- Correspondence between a token of the plain run and of the BOM run:
same kind and line number, offset shifted by the three BOM bytes.  Columns
and values are deliberately not related: the lexer's column tracking stops
corresponding after a newline consumed inside a scanner, and the substr
corner case at the end of the buffer can give the two runs different
values. -/
def TokR (t t' : Token) : Prop :=
  t'.kind = t.kind ∧ t'.offset = t.offset + 3 ∧ t'.lineno = t.lineno

/-- Correspondence between lexer states of the plain run (over `B`) and of
the BOM run (over `BOM ++ B`). -/
def StR (st st' : LexState) : Prop :=
  st'.offset = st.offset + 3 ∧ st'.lineno = st.lineno ∧
    List.Forall₂ TokR st.tokens st'.tokens

/-- Relate two optional results: both absent, or both present and related. -/
def OptRel {α : Type} (r : α → α → Prop) : Option α → Option α → Prop
  | none, none => True
  | some a, some b => r a b
  | _, _ => False

theorem optRel_none {α : Type} (r : α → α → Prop) : OptRel r none none := trivial

theorem optBind_R {α : Type} {r s : α → α → Prop} {a b : Option α}
    (h : OptRel r a b) (g g' : α → Option α)
    (hg : ∀ x y, r x y → OptRel s (g x) (g' y)) :
    OptRel s (match a with | none => none | some x => g x)
      (match b with | none => none | some y => g' y) := by
  cases a with
  | none =>
    cases b with
    | none => trivial
    | some y => exact absurd h (by simp [OptRel])
  | some x =>
    cases b with
    | none => exact absurd h (by simp [OptRel])
    | some y => exact hg x y h

theorem bget_bom (B : List Nat) (i : Nat) : bget (BOM ++ B) (i + 3) = bget B i := by
  show bget (239 :: 187 :: 191 :: B) (i + 3) = bget B i
  simp [bget, List.getD]

theorem bom_length (B : List Nat) : (BOM ++ B).length = B.length + 3 := by
  simp [BOM]

theorem advance_R (B : List Nat) (st st' : LexState) (hR : StR st st') :
    (lexer_advance (BOM ++ B) st').1 = (lexer_advance B st).1 ∧
      StR (lexer_advance B st).2 (lexer_advance (BOM ++ B) st').2 := by
  obtain ⟨ho, hl, ht⟩ := hR
  unfold lexer_advance
  by_cases hc : B.length ≤ st.offset
  · rw [if_pos hc, if_pos (by rw [bom_length, ho]; omega)]
    exact ⟨rfl, ho, hl, ht⟩
  · rw [if_neg hc, if_neg (by rw [bom_length, ho]; omega)]
    refine ⟨?_, ?_, hl, ht⟩
    · dsimp only
      rw [ho, bget_bom]
    · dsimp only
      omega

theorem advance_offset_ge (B : List Nat) (st : LexState) :
    st.offset ≤ (lexer_advance B st).2.offset := by
  unfold lexer_advance
  split <;> simp

theorem incOffset_R (st st' : LexState) (hR : StR st st') :
    StR (incOffset st) (incOffset st') := by
  obtain ⟨ho, hl, ht⟩ := hR
  exact ⟨by simp [incOffset]; omega, by simpa [incOffset] using hl, ht⟩

theorem maketoken_R (st st' : LexState) (k : TokenKind) (hR : StR st st') :
    StR (lexer_maketoken st k) (lexer_maketoken st' k) := by
  obtain ⟨ho, hl, ht⟩ := hR
  refine ⟨by simpa [lexer_maketoken] using ho, by simpa [lexer_maketoken] using hl, ?_⟩
  simp only [lexer_maketoken]
  exact List.rel_append ht (List.Forall₂.cons ⟨rfl, ho, hl⟩ List.Forall₂.nil)

theorem makestr_R (st st' : LexState) (v v' : List Nat) (hR : StR st st') :
    StR (lexer_makestrtoken st v) (lexer_makestrtoken st' v') := by
  obtain ⟨ho, hl, ht⟩ := hR
  refine ⟨by simpa [lexer_makestrtoken] using ho, by simpa [lexer_makestrtoken] using hl, ?_⟩
  simp only [lexer_makestrtoken]
  exact List.rel_append ht (List.Forall₂.cons ⟨rfl, ho, hl⟩ List.Forall₂.nil)

theorem makeident_R (st st' : LexState) (v v' : List Nat) (hR : StR st st') :
    StR (lexer_makeidenttoken st v) (lexer_makeidenttoken st' v') := by
  obtain ⟨ho, hl, ht⟩ := hR
  refine ⟨by simpa [lexer_makeidenttoken] using ho, by simpa [lexer_makeidenttoken] using hl, ?_⟩
  simp only [lexer_makeidenttoken]
  exact List.rel_append ht (List.Forall₂.cons ⟨rfl, ho, hl⟩ List.Forall₂.nil)

theorem identLoop_R (B : List Nat) :
    ∀ f ch st st', StR st st' →
      OptRel (fun p p' => p'.1 = p.1 ∧ StR p.2 p'.2)
        (identLoop B f ch st) (identLoop (BOM ++ B) f ch st') := by
  intro f
  induction f with
  | zero => intro ch st st' _; exact trivial
  | succ f ih =>
    intro ch st st' hR
    unfold identLoop
    by_cases hc : (isLetter ch || isDigit ch) = true
    · rw [if_pos hc, if_pos hc]
      dsimp only
      obtain ⟨he, hadv⟩ := advance_R B st st' hR
      rw [he]
      exact ih _ _ _ hadv
    · rw [if_neg hc, if_neg hc]
      exact ⟨rfl, hR⟩

theorem digitLoop_R (B : List Nat) :
    ∀ f ch st st', StR st st' →
      OptRel (fun p p' => p'.1 = p.1 ∧ StR p.2 p'.2)
        (digitLoop B f ch st) (digitLoop (BOM ++ B) f ch st') := by
  intro f
  induction f with
  | zero => intro ch st st' _; exact trivial
  | succ f ih =>
    intro ch st st' hR
    unfold digitLoop
    by_cases hc : isDigit ch = true
    · rw [if_pos hc, if_pos hc]
      dsimp only
      obtain ⟨he, hadv⟩ := advance_R B st st' hR
      rw [he]
      exact ih _ _ _ hadv
    · rw [if_neg hc, if_neg hc]
      exact ⟨rfl, hR⟩

theorem strLoop_R (B : List Nat) :
    ∀ f ch st st', StR st st' →
      OptRel (fun p p' => p'.1 = p.1 ∧ StR p.2 p'.2)
        (strLoop B f ch st) (strLoop (BOM ++ B) f ch st') := by
  intro f
  induction f with
  | zero => intro ch st st' _; exact trivial
  | succ f ih =>
    intro ch st st' hR
    unfold strLoop
    by_cases hc : ch ≠ 34
    · rw [if_pos hc, if_pos hc]
      by_cases hb : ch = 92
      · rw [if_pos hb, if_pos hb]
        exact ih _ _ _ hR
      · rw [if_neg hb, if_neg hb]
        dsimp only
        obtain ⟨he, hadv⟩ := advance_R B st st' hR
        rw [he]
        exact ih _ _ _ hadv
    · rw [if_neg hc, if_neg hc]
      exact ⟨rfl, hR⟩

theorem slLoop_R (B : List Nat) :
    ∀ f ch st st', StR st st' →
      OptRel StR (slLoop B f ch st) (slLoop (BOM ++ B) f ch st') := by
  intro f
  induction f with
  | zero => intro ch st st' _; exact trivial
  | succ f ih =>
    intro ch st st' hR
    unfold slLoop
    by_cases hc : ch ≠ 0 ∧ ch ≠ 10
    · rw [if_pos hc, if_pos hc]
      dsimp only
      obtain ⟨he, hadv⟩ := advance_R B st st' hR
      rw [he]
      exact ih _ _ _ hadv
    · rw [if_neg hc, if_neg hc]
      exact hR

theorem mlInner_R (B : List Nat) :
    ∀ f ch st st', StR st st' →
      OptRel (fun p p' => p'.1 = p.1 ∧ StR p.2 p'.2)
        (mlInner B f ch st) (mlInner (BOM ++ B) f ch st') := by
  intro f
  induction f with
  | zero => intro ch st st' _; exact trivial
  | succ f ih =>
    intro ch st st' hR
    unfold mlInner
    by_cases hc : ch ≠ 0 ∧ ch ≠ 42
    · rw [if_pos hc, if_pos hc]
      dsimp only
      obtain ⟨he, hadv⟩ := advance_R B st st' hR
      rw [he]
      exact ih _ _ _ hadv
    · rw [if_neg hc, if_neg hc]
      exact ⟨rfl, hR⟩

theorem mlOuter_R (B : List Nat) :
    ∀ f ch found st st', StR st st' →
      OptRel (fun p p' => p'.1 = p.1 ∧ StR p.2 p'.2)
        (mlOuter B f ch found st) (mlOuter (BOM ++ B) f ch found st') := by
  intro f
  induction f with
  | zero => intro ch found st st' _; exact trivial
  | succ f ih =>
    intro ch found st st' hR
    unfold mlOuter
    by_cases hc : ch ≠ 0 ∧ ¬(ch = 47 ∧ found = true)
    · rw [if_pos hc, if_pos hc]
      have hinner := mlInner_R B f ch st st' hR
      cases h1 : mlInner B f ch st with
      | none =>
        cases h2 : mlInner (BOM ++ B) f ch st' with
        | none => exact trivial
        | some q =>
          rw [h1, h2] at hinner
          exact absurd hinner (by simp [OptRel])
      | some p =>
        cases h2 : mlInner (BOM ++ B) f ch st' with
        | none =>
          rw [h1, h2] at hinner
          exact absurd hinner (by simp [OptRel])
        | some q =>
          rw [h1, h2] at hinner
          obtain ⟨hq1, hq2⟩ := hinner
          obtain ⟨c2, st2⟩ := p
          obtain ⟨c2q, st2q⟩ := q
          dsimp only at hq1 hq2 ⊢
          subst hq1
          obtain ⟨he, hadv⟩ := advance_R B st2 st2q hq2
          rw [he]
          exact ih _ _ _ _ hadv
    · rw [if_neg hc, if_neg hc]
      exact ⟨rfl, hR⟩

theorem lexer_lex_identifier_R (B : List Nat) (f : Nat) (st st' : LexState)
    (hR : StR st st') (hoff : 1 ≤ st.offset) :
    OptRel StR (lexer_lex_identifier B f st) (lexer_lex_identifier (BOM ++ B) f st') := by
  unfold lexer_lex_identifier
  dsimp only
  obtain ⟨he, hadv⟩ := advance_R B st st' hR
  rw [he]
  have hloop := identLoop_R B f (lexer_advance B st).1 (lexer_advance B st).2
    (lexer_advance (BOM ++ B) st').2 hadv
  cases h1 : identLoop B f (lexer_advance B st).1 (lexer_advance B st).2 with
  | none =>
    cases h2 : identLoop (BOM ++ B) f (lexer_advance B st).1 (lexer_advance (BOM ++ B) st').2 with
    | none => exact trivial
    | some q =>
      rw [h1, h2] at hloop
      exact absurd hloop (by simp [OptRel])
  | some p =>
    cases h2 : identLoop (BOM ++ B) f (lexer_advance B st).1 (lexer_advance (BOM ++ B) st').2 with
    | none =>
      rw [h1, h2] at hloop
      exact absurd hloop (by simp [OptRel])
    | some q =>
      rw [h1, h2] at hloop
      obtain ⟨hq1, hq2⟩ := hloop
      obtain ⟨c2, st2⟩ := p
      obtain ⟨c2q, st2q⟩ := q
      dsimp only at hq1 hq2 ⊢
      have hofadv : 1 ≤ (lexer_advance B st).2.offset :=
        le_trans hoff (advance_offset_ge B st)
      have hprev : (lexer_advance (BOM ++ B) st').2.offset - 1 =
          ((lexer_advance B st).2.offset - 1) + 3 := by
        rw [hadv.1]; omega
      have hdiff : st2q.offset - ((lexer_advance (BOM ++ B) st').2.offset - 1) =
          st2.offset - ((lexer_advance B st).2.offset - 1) := by
        rw [hprev, hq2.1]; omega
      rw [hdiff]
      by_cases hz : st2.offset - ((lexer_advance B st).2.offset - 1) = 0
      · rw [if_pos hz, if_pos hz]
        exact trivial
      · rw [if_neg hz, if_neg hz]
        exact makeident_R _ _ _ _ hq2

theorem lexer_lex_digit_R (B : List Nat) (f : Nat) (st st' : LexState) (hR : StR st st') :
    OptRel StR (lexer_lex_digit B f st) (lexer_lex_digit (BOM ++ B) f st') := by
  unfold lexer_lex_digit
  dsimp only
  have hch : bget (BOM ++ B) st'.offset = bget B st.offset := by
    rw [hR.1, bget_bom]
  rw [hch]
  have hloop := digitLoop_R B f (bget B st.offset) st st' hR
  cases h1 : digitLoop B f (bget B st.offset) st with
  | none =>
    cases h2 : digitLoop (BOM ++ B) f (bget B st.offset) st' with
    | none => exact trivial
    | some q =>
      rw [h1, h2] at hloop
      exact absurd hloop (by simp [OptRel])
  | some p =>
    cases h2 : digitLoop (BOM ++ B) f (bget B st.offset) st' with
    | none =>
      rw [h1, h2] at hloop
      exact absurd hloop (by simp [OptRel])
    | some q =>
      rw [h1, h2] at hloop
      obtain ⟨c2, st2⟩ := p
      obtain ⟨c2q, st2q⟩ := q
      exact maketoken_R _ _ _ hloop.2

theorem lexer_lex_string_R (B : List Nat) (f : Nat) (st st' : LexState)
    (hR : StR st st') (hoff : 1 ≤ st.offset) :
    OptRel StR (lexer_lex_string B f st) (lexer_lex_string (BOM ++ B) f st') := by
  unfold lexer_lex_string
  have hch : bget (BOM ++ B) st'.offset = bget B st.offset := by
    rw [hR.1, bget_bom]
  rw [hch]
  by_cases hq : bget B st.offset = 34
  · rw [if_pos hq, if_pos hq]
    exact trivial
  · rw [if_neg hq, if_neg hq]
    dsimp only
    obtain ⟨he, hadv⟩ := advance_R B st st' hR
    rw [he]
    have hloop := strLoop_R B f (lexer_advance B st).1 (lexer_advance B st).2
      (lexer_advance (BOM ++ B) st').2 hadv
    cases h1 : strLoop B f (lexer_advance B st).1 (lexer_advance B st).2 with
    | none =>
      cases h2 : strLoop (BOM ++ B) f (lexer_advance B st).1 (lexer_advance (BOM ++ B) st').2 with
      | none => exact trivial
      | some q =>
        rw [h1, h2] at hloop
        exact absurd hloop (by simp [OptRel])
    | some p =>
      cases h2 : strLoop (BOM ++ B) f (lexer_advance B st).1 (lexer_advance (BOM ++ B) st').2 with
      | none =>
        rw [h1, h2] at hloop
        exact absurd hloop (by simp [OptRel])
      | some q =>
        rw [h1, h2] at hloop
        obtain ⟨hq1, hq2⟩ := hloop
        obtain ⟨c2, st2⟩ := p
        obtain ⟨c2q, st2q⟩ := q
        dsimp only at hq1 hq2 ⊢
        subst hq1
        by_cases h34 : c2q = 34
        · rw [if_pos h34, if_pos h34]
          have hofadv : 1 ≤ (lexer_advance B st).2.offset :=
            le_trans hoff (advance_offset_ge B st)
          have hprev : (lexer_advance (BOM ++ B) st').2.offset - 1 =
              ((lexer_advance B st).2.offset - 1) + 3 := by
            rw [hadv.1]; omega
          have hdiff : st2q.offset - ((lexer_advance (BOM ++ B) st').2.offset - 1) =
              st2.offset - ((lexer_advance B st).2.offset - 1) := by
            rw [hprev, hq2.1]; omega
          rw [hdiff]
          by_cases hz : st2.offset - ((lexer_advance B st).2.offset - 1) = 0
          · rw [if_pos hz, if_pos hz]
            exact trivial
          · rw [if_neg hz, if_neg hz]
            exact makestr_R _ _ _ _ hq2
        · rw [if_neg h34, if_neg h34]
          exact trivial

theorem lexer_lex_sl_comment_R (B : List Nat) (f : Nat) (st st' : LexState) (hR : StR st st') :
    OptRel StR (lexer_lex_sl_comment B f st) (lexer_lex_sl_comment (BOM ++ B) f st') := by
  unfold lexer_lex_sl_comment
  dsimp only
  obtain ⟨he, hadv⟩ := advance_R B st st' hR
  rw [he]
  exact slLoop_R B f _ _ _ hadv

theorem lexer_lex_ml_comment_R (B : List Nat) (f : Nat) (st st' : LexState) (hR : StR st st') :
    OptRel StR (lexer_lex_ml_comment B f st) (lexer_lex_ml_comment (BOM ++ B) f st') := by
  unfold lexer_lex_ml_comment
  dsimp only
  obtain ⟨he, hadv⟩ := advance_R B st st' hR
  rw [he]
  have hloop := mlOuter_R B f (lexer_advance B st).1 false (lexer_advance B st).2
    (lexer_advance (BOM ++ B) st').2 hadv
  cases h1 : mlOuter B f (lexer_advance B st).1 false (lexer_advance B st).2 with
  | none =>
    cases h2 : mlOuter (BOM ++ B) f (lexer_advance B st).1 false (lexer_advance (BOM ++ B) st').2 with
    | none => exact trivial
    | some q =>
      rw [h1, h2] at hloop
      exact absurd hloop (by simp [OptRel])
  | some p =>
    cases h2 : mlOuter (BOM ++ B) f (lexer_advance B st).1 false (lexer_advance (BOM ++ B) st').2 with
    | none =>
      rw [h1, h2] at hloop
      exact absurd hloop (by simp [OptRel])
    | some q =>
      rw [h1, h2] at hloop
      obtain ⟨c2, st2⟩ := p
      obtain ⟨c2q, st2q⟩ := q
      exact (advance_R B st2 st2q hloop.2).2

theorem shapeOf_zero (n n2 : Nat) : shapeOf 0 n n2 = .shEof := rfl

/-- Under the BOM state correspondence the two runs take the same switch
branch, at related post-advance states; every branch other than the EOF
one was reached by actually consuming a character. -/
theorem dispatch_shape_eq (B : List Nat) (st st' : LexState) (hR : StR st st') :
    ∃ sh st1 st1', lexDispatch B st = applyShape sh st1 ∧
      lexDispatch (BOM ++ B) st' = applyShape sh st1' ∧ StR st1 st1' ∧
      (sh ≠ .shEof → 1 ≤ st1.offset) := by
  obtain ⟨hadv1, hadv2⟩ := advance_R B st st' hR
  rcases hp : lexer_advance B st with ⟨c, st1⟩
  rcases hp' : lexer_advance (BOM ++ B) st' with ⟨c2, st1'⟩
  rw [hp, hp'] at hadv1 hadv2
  dsimp only at hadv1 hadv2
  subst hadv1
  refine ⟨shapeOf c2 (lexer_peek B st1) (bget B (st1.offset + 1)), st1, st1', ?_, ?_, hadv2, ?_⟩
  · unfold lexDispatch
    rw [hp]
  · unfold lexDispatch
    rw [hp']
    dsimp only
    have e1 : lexer_peek (BOM ++ B) st1' = lexer_peek B st1 := by
      unfold lexer_peek
      rw [hadv2.1, bget_bom]
    have e2 : bget (BOM ++ B) (st1'.offset + 1) = bget B (st1.offset + 1) := by
      rw [hadv2.1]
      have e3 : st1.offset + 3 + 1 = st1.offset + 1 + 3 := by omega
      rw [e3, bget_bom]
    rw [e1, e2]
  · intro hne
    by_cases hc : c2 = 0
    · subst hc
      exact absurd rfl hne
    · unfold lexer_advance at hp
      split at hp
      · cases hp
        exact absurd rfl hc
      · cases hp
        simp

/-- Main simulation: related states produce related loop results, for the
same fuel. -/
theorem lexLoop_R (B : List Nat) :
    ∀ f st st', StR st st' →
      OptRel (List.Forall₂ TokR) (lexLoop B f st) (lexLoop (BOM ++ B) f st') := by
  intro f
  induction f with
  | zero => intro st st' _; exact trivial
  | succ f ih =>
    intro st st' hR
    obtain ⟨sh, st1, st1', e1, e2, hR1, hoff⟩ := dispatch_shape_eq B st st' hR
    unfold lexLoop
    rw [e1, e2]
    cases sh with
    | shEof =>
      dsimp only [applyShape]
      exact (maketoken_R st1 st1' .TOK_EOF hR1).2.2
    | shSkip =>
      dsimp only [applyShape]
      exact ih st1 st1' hR1
    | shNewline =>
      dsimp only [applyShape]
      exact ih _ _ ⟨by simpa using hR1.1, by simpa using hR1.2.1, hR1.2.2⟩
    | shIdent =>
      dsimp only [applyShape]
      have hrel := lexer_lex_identifier_R B f st1 st1' hR1 (hoff (by decide))
      cases h1 : lexer_lex_identifier B f st1 with
      | none =>
        cases h2 : lexer_lex_identifier (BOM ++ B) f st1' with
        | none => exact trivial
        | some y =>
          rw [h1, h2] at hrel
          exact absurd hrel (by simp [OptRel])
      | some x =>
        cases h2 : lexer_lex_identifier (BOM ++ B) f st1' with
        | none =>
          rw [h1, h2] at hrel
          exact absurd hrel (by simp [OptRel])
        | some y =>
          rw [h1, h2] at hrel
          exact ih x y hrel
    | shDigit =>
      dsimp only [applyShape]
      have hrel := lexer_lex_digit_R B f st1 st1' hR1
      cases h1 : lexer_lex_digit B f st1 with
      | none =>
        cases h2 : lexer_lex_digit (BOM ++ B) f st1' with
        | none => exact trivial
        | some y =>
          rw [h1, h2] at hrel
          exact absurd hrel (by simp [OptRel])
      | some x =>
        cases h2 : lexer_lex_digit (BOM ++ B) f st1' with
        | none =>
          rw [h1, h2] at hrel
          exact absurd hrel (by simp [OptRel])
        | some y =>
          rw [h1, h2] at hrel
          exact ih x y hrel
    | shStr =>
      dsimp only [applyShape]
      have hrel := lexer_lex_string_R B f st1 st1' hR1 (hoff (by decide))
      cases h1 : lexer_lex_string B f st1 with
      | none =>
        cases h2 : lexer_lex_string (BOM ++ B) f st1' with
        | none => exact trivial
        | some y =>
          rw [h1, h2] at hrel
          exact absurd hrel (by simp [OptRel])
      | some x =>
        cases h2 : lexer_lex_string (BOM ++ B) f st1' with
        | none =>
          rw [h1, h2] at hrel
          exact absurd hrel (by simp [OptRel])
        | some y =>
          rw [h1, h2] at hrel
          exact ih x y hrel
    | shStrEmpty =>
      dsimp only [applyShape]
      exact ih _ _ (maketoken_R _ _ .TOK_ILLEGAL (makestr_R _ _ _ _ (incOffset_R _ _ hR1)))
    | shSlc =>
      dsimp only [applyShape]
      have hrel := lexer_lex_sl_comment_R B f st1 st1' hR1
      cases h1 : lexer_lex_sl_comment B f st1 with
      | none =>
        cases h2 : lexer_lex_sl_comment (BOM ++ B) f st1' with
        | none => exact trivial
        | some y =>
          rw [h1, h2] at hrel
          exact absurd hrel (by simp [OptRel])
      | some x =>
        cases h2 : lexer_lex_sl_comment (BOM ++ B) f st1' with
        | none =>
          rw [h1, h2] at hrel
          exact absurd hrel (by simp [OptRel])
        | some y =>
          rw [h1, h2] at hrel
          exact ih x y hrel
    | shMlc =>
      dsimp only [applyShape]
      have hrel := lexer_lex_ml_comment_R B f st1 st1' hR1
      cases h1 : lexer_lex_ml_comment B f st1 with
      | none =>
        cases h2 : lexer_lex_ml_comment (BOM ++ B) f st1' with
        | none => exact trivial
        | some y =>
          rw [h1, h2] at hrel
          exact absurd hrel (by simp [OptRel])
      | some x =>
        cases h2 : lexer_lex_ml_comment (BOM ++ B) f st1' with
        | none =>
          rw [h1, h2] at hrel
          exact absurd hrel (by simp [OptRel])
        | some y =>
          rw [h1, h2] at hrel
          exact ih x y hrel
    | shEmit0 k =>
      dsimp only [applyShape]
      exact ih _ _ (maketoken_R _ _ k hR1)
    | shEmit1 k =>
      dsimp only [applyShape]
      exact ih _ _ (maketoken_R _ _ k (incOffset_R _ _ hR1))
    | shEmit2 k =>
      dsimp only [applyShape]
      exact ih _ _ (maketoken_R _ _ k (incOffset_R _ _ (incOffset_R _ _ hR1)))

/-- C7, amended main theorem: for every nonempty source buffer that does
not itself begin with the BOM bytes, whenever lexing `B` completes,
lexing `BOM ++ B` completes too and the two token lists correspond
pairwise: same kinds, same line numbers, every offset shifted by exactly
3.  Locations are therefore not preserved — every offset differs, and
columns can differ as well (the shift shows in the column until a newline
resets both runs' column counters, so no uniform column relation holds);
the original claim's "same locations" is refuted by `C7_counterexample`.
For an empty buffer `lexer_advancen`'s `>=` guard refuses to skip the
BOM at all, so its three bytes are lexed as invalid characters. -/
theorem C7_bom_shifts_tokens (B : List Nat) (fuel : Nat) (out : List Token)
    (hne : B ≠ [])
    (hnb : ¬(bget B 0 = 239 ∧ bget B 1 = 187 ∧ bget B 2 = 191))
    (h : lexer_lex B fuel = some out) :
    ∃ out', lexer_lex (BOM ++ B) fuel = some out' ∧ List.Forall₂ TokR out out' := by
  unfold lexer_lex at h ⊢
  dsimp only at h ⊢
  rw [if_neg hnb] at h
  rw [if_pos (show bget (BOM ++ B) 0 = 239 ∧ bget (BOM ++ B) 1 = 187 ∧
    bget (BOM ++ B) 2 = 191 from ⟨rfl, rfl, rfl⟩)]
  have hlen : 1 ≤ B.length := List.length_pos.2 hne
  have hinit : lexer_advancen (BOM ++ B) ⟨0, 1, 1, []⟩ 3 =
      { offset := 0 + 3, lineno := 1, colno := 1 + 3, tokens := [] } := by
    unfold lexer_advancen
    rw [if_neg (by rw [bom_length]; dsimp only; omega)]
  rw [hinit]
  have hrel := lexLoop_R B fuel ⟨0, 1, 1, []⟩
    { offset := 0 + 3, lineno := 1, colno := 1 + 3, tokens := [] }
    ⟨rfl, rfl, List.Forall₂.nil⟩
  rw [h] at hrel
  cases hout' : lexLoop (BOM ++ B) fuel
      { offset := 0 + 3, lineno := 1, colno := 1 + 3, tokens := [] } with
  | none =>
    rw [hout'] at hrel
    exact absurd hrel (by simp [OptRel])
  | some out' =>
    rw [hout'] at hrel
    exact ⟨out', rfl, hrel⟩

/-- Witness for C7 at the concrete buffer `;`. -/
theorem C7_bom_shifts_tokens_witness :
    ∃ out', lexer_lex (BOM ++ [59]) 10 = some out' ∧
      List.Forall₂ TokR [⟨.SEMICOLON, 1, 1, 2, []⟩, ⟨.TOK_EOF, 1, 1, 2, []⟩] out' :=
  C7_bom_shifts_tokens [59] 10 _ (by simp) (by decide) rfl

/-- C7, counterexample to the claim as stated: lexing `BOM ++ ";"` gives
the semicolon token at offset 4, column 5, while lexing `";"` gives it at
offset 1, column 2 — same kinds and values, but not the same locations. -/
theorem C7_counterexample :
    lexer_lex [239, 187, 191, 59] 12 =
      some [⟨.SEMICOLON, 4, 1, 5, []⟩, ⟨.TOK_EOF, 4, 1, 5, []⟩] ∧
    lexer_lex [59] 12 =
      some [⟨.SEMICOLON, 1, 1, 2, []⟩, ⟨.TOK_EOF, 1, 1, 2, []⟩] :=
  ⟨rfl, rfl⟩

end Hazel

namespace Adorad

open Hazel

/-!
Parser embedding, from `src/adorad/compiler/parser.c`.  The parser walks
the lexer's token vector with a cursor (`curr_tok`), producing a tagged
AST.  Fallible functions return `Except PErr`; a C `panic` is an `error`,
a null-pointer dereference is `PErr.nullDeref`, a failing CORETEN_CHECK
assertion is `PErr.checkFail`, and `PErr.outOfFuel` marks a run that did
not complete within its fuel (which also covers genuine divergence).
Functions of the source that the repository snapshot does not contain are
modelled from the spec and say so in their doc comments.
-/

/-- AST node kinds, after the source's `AstNodeKind` enumeration
(`AstNodeKindFuncPrototype` etc.). -/
inductive AstNodeKind where
  | FuncPrototype | ParamDecl | VarDecl | Block | Defer | IfExpr
  | LoopCExpr | LoopWhileExpr | LoopInExpr
  | BinaryOpExpr | UnaryOpExpr
  | Break | Continue | Return
  | CharLiteral | FloatLiteral | Identifier | IntLiteral | BoolLiteral
  | Unreachable | StringLiteral
  | MatchExpr | MatchBranch | InitExpr | FuncCallExpr | SliceExpr
deriving DecidableEq, Repr

/-- Binary operator kinds, after the source's `BinaryOpKind` enumeration
(the spellings `BitshitLeft`/`BitshitRight` are the source's own). -/
inductive BinaryOpKind where
  | Mult | Mod | Div
  | Add | Subtract | AssignmentPlus | AssignmentMinus
  | BitshitLeft | BitshitRight
  | CmpEqual | CmpNotEqual | CmpGreaterThan | CmpLessThan
  | CmpGreaterThanorEqualTo | CmpLessThanorEqualTo
  | BoolAnd | BoolOr
deriving DecidableEq, Repr

/-- Branch statement type, after `AstNodeBranchStatementBreak` /
`AstNodeBranchStatementContinue`. -/
inductive BranchKind where
  | Break | Continue
deriving DecidableEq, Repr

/-- The payload fields an AST node can carry.  The source stores payloads
in unions of per-kind structs reached through pointer chains
(`node->data.stmt->var_decl->name`); following the spec's modelling note
(§9: "a single tagged variant whose arms each carry their own payload"),
we flatten them into one record, with one field per distinct payload slot
the parser writes. -/
structure NodeData (A : Type) where
  kind : AstNodeKind
  op : Option BinaryOpKind := none
  lhs : Option A := none
  rhs : Option A := none
  name : Option (List Nat) := none
  children : List A := []
  expr : Option A := none
  cond : Option A := none
  thenB : Option A := none
  elseB : Option A := none
  retType : Option A := none
  hasElse : Bool := false
  isExport : Bool := false
  isMutable : Bool := false
  isConst : Bool := false
  isVarArgs : Bool := false
  isInline : Bool := false
  branchKind : Option BranchKind := none
  boolValue : Bool := false

/-- A tagged AST node. -/
inductive AstNode where
  | mk (data : NodeData AstNode)

/-- Projection to the payload record. -/
def AstNode.data : AstNode → NodeData AstNode
  | .mk d => d

/-- ast_create_node: a fresh node of the given kind with zeroed payload. -/
def ast_create_node (k : AstNodeKind) : AstNode := .mk { kind := k }

/-- The node's kind tag. -/
def AstNode.kind (n : AstNode) : AstNodeKind := n.data.kind

/-- Functional update of a node's payload (a C field write). -/
def AstNode.upd (n : AstNode) (g : NodeData AstNode → NodeData AstNode) : AstNode :=
  .mk (g n.data)

/-- Parse errors: the source's panic kinds plus the two ways a run can
fail without reaching a panic (null dereference, assertion failure) and
fuel expiry. -/
inductive PErr where
  | unexpectedToken
  | parseError (msg : String)
  | unexpectedNull
  | nullDeref
  | checkFail
  | unreachableHit
  | outOfFuel
deriving DecidableEq, Repr

/-- Parser state: the (immutable) token vector and the cursor index. -/
structure PState where
  toks : List Token
  pos : Nat
deriving Repr

/-- Result of a node-producing parser function. -/
abbrev PRes := Except PErr (Option AstNode × PState)

/-- The EOF sentinel used when reading past the end of the token array
(undefined behaviour in C; an EOF-terminated stream never reaches it,
since no parser function consumes the EOF token). -/
def eofTok : Token := ⟨.TOK_EOF, 0, 0, 0, []⟩

/-- parser_peek_token: the current token without consuming. -/
def parser_peek_token (st : PState) : Token := st.toks.getD st.pos eofTok

/-- parser_chomp: the current token, advancing the cursor. -/
def parser_chomp (st : PState) : Token × PState :=
  (parser_peek_token st, { st with pos := st.pos + 1 })

/-- parser_chomp_if: consume and return the current token if it has the
requested kind, else return null and stay. -/
def parser_chomp_if (st : PState) (k : TokenKind) : Option Token × PState :=
  if (parser_peek_token st).kind = k then
    ((parser_chomp st).1, (parser_chomp st).2)
  else (none, st)

/-- parser_expect_token: like chomp_if but panics (ErrorUnexpectedToken)
on a mismatch. -/
def parser_expect_token (st : PState) (k : TokenKind) : Except PErr (Token × PState) :=
  if (parser_peek_token st).kind = k then .ok (parser_chomp st)
  else .error .unexpectedToken

/-- Dereference `tok->value` on a possibly-null token: null is a
null-pointer dereference. -/
def tokValue : Option Token → Except PErr (List Nat)
  | some t => .ok t.value
  | none => .error .nullDeref

/-- The message of the `mutable`+`const` ast_error in ast_parse_var_decl. -/
def conflictMsg : String := "Cannot decorate a variable as both `mutable` and `const`"

/-- The source's precedence_table: token kind, precedence value, binary
operator kind (lines 396-420 of parser.c, including the assignment
operators placed at tier 50). -/
def precedence_table : List (TokenKind × Nat × BinaryOpKind) :=
  [(.MULT, 60, .Mult), (.MOD, 60, .Mod), (.SLASH, 60, .Div),
   (.PLUS, 50, .Add), (.MINUS, 50, .Subtract),
   (.PLUS_EQUALS, 50, .AssignmentPlus), (.MINUS_EQUALS, 50, .AssignmentMinus),
   (.LBITSHIFT, 40, .BitshitLeft), (.RBITSHIFT, 40, .BitshitRight),
   (.EQUALS_EQUALS, 30, .CmpEqual), (.EXCLAMATION_EQUALS, 30, .CmpNotEqual),
   (.GREATER_THAN, 30, .CmpGreaterThan), (.LESS_THAN, 30, .CmpLessThan),
   (.GREATER_THAN_OR_EQUAL_TO, 30, .CmpGreaterThanorEqualTo),
   (.LESS_THAN_OR_EQUAL_TO, 30, .CmpLessThanorEqualTo),
   (.AND, 20, .BoolAnd), (.OR, 10, .BoolOr)]

/-- BinaryOpChain, ported (per the source comment) from Zig's parser:
`Once` parses at most one operator of a tier, `Infinity` chains. -/
inductive BinaryOpChain where
  | Once
  | Infinity
deriving DecidableEq, Repr

/-- ast_parse_boolean_and_op: chomp `and`, produce a BinaryOpExpr node
with op = BoolAnd. -/
def ast_parse_boolean_and_op (st : PState) : Option AstNode × PState :=
  match parser_chomp_if st .AND with
  | (none, st1) => (none, st1)
  | (some _, st1) =>
    (some ((ast_create_node .BinaryOpExpr).upd (fun d => { d with op := some .BoolAnd })), st1)

/-- ast_parse_boolean_or_op: chomp `or`, produce a BinaryOpExpr node with
op = BoolOr. -/
def ast_parse_boolean_or_op (st : PState) : Option AstNode × PState :=
  match parser_chomp_if st .OR with
  | (none, st1) => (none, st1)
  | (some _, st1) =>
    (some ((ast_create_node .BinaryOpExpr).upd (fun d => { d with op := some .BoolOr })), st1)

/-- Modelled from the spec: the per-tier operator parsers
(ast_parse_multiplication_op and friends) are absent from src; each is
modelled after ast_parse_boolean_and_op's shape, chomping the first
matching kind of its tier and producing the BinaryOpExpr node with the
operator from the source's precedence_table. -/
def ast_parse_tier_op (pairs : List (TokenKind × BinaryOpKind)) :
    PState → Option AstNode × PState := fun st =>
  match pairs with
  | [] => (none, st)
  | (k, bk) :: rest =>
    match parser_chomp_if st k with
    | (some _, st1) =>
      (some ((ast_create_node .BinaryOpExpr).upd (fun d => { d with op := some bk })), st1)
    | (none, _) => ast_parse_tier_op rest st

/-- Modelled from the spec (see `ast_parse_tier_op`): tier-60 operators. -/
def ast_parse_multiplication_op : PState → Option AstNode × PState :=
  ast_parse_tier_op [(.MULT, .Mult), (.MOD, .Mod), (.SLASH, .Div)]

/-- Modelled from the spec (see `ast_parse_tier_op`): tier-50 operators. -/
def ast_parse_addition_op : PState → Option AstNode × PState :=
  ast_parse_tier_op [(.PLUS, .Add), (.MINUS, .Subtract),
    (.PLUS_EQUALS, .AssignmentPlus), (.MINUS_EQUALS, .AssignmentMinus)]

/-- Modelled from the spec (see `ast_parse_tier_op`): tier-40 operators. -/
def ast_parse_bitshift_op : PState → Option AstNode × PState :=
  ast_parse_tier_op [(.LBITSHIFT, .BitshitLeft), (.RBITSHIFT, .BitshitRight)]

/-- Modelled from the spec (see `ast_parse_tier_op`): the bitwise tier of
the source's expression chain (the grammar comment names BitwiseOp; the
precedence_table has no dedicated rows for `&` `|` `^`, so the modelled
parser matches those kinds with the nearest table kinds). -/
def ast_parse_bitwise_op : PState → Option AstNode × PState :=
  ast_parse_tier_op []

/-- Modelled from the spec (see `ast_parse_tier_op`): tier-30 comparison
operators. -/
def ast_parse_comparison_op : PState → Option AstNode × PState :=
  ast_parse_tier_op [(.EQUALS_EQUALS, .CmpEqual), (.EXCLAMATION_EQUALS, .CmpNotEqual),
    (.GREATER_THAN, .CmpGreaterThan), (.LESS_THAN, .CmpLessThan),
    (.GREATER_THAN_OR_EQUAL_TO, .CmpGreaterThanorEqualTo),
    (.LESS_THAN_OR_EQUAL_TO, .CmpLessThanorEqualTo)]

/-- The do-while loop of ast_parse_binary_op_expr: repeatedly parse an
operator and a right operand, rebuilding `out`; `Once` exits after one
iteration, `Infinity` repeats until the operator parser returns null. -/
def binOpLoop (opP : PState → Option AstNode × PState) (childP : PState → PRes) :
    Nat → BinaryOpChain → AstNode → PState → PRes
  | 0, _, _, _ => .error .outOfFuel
  | fl + 1, chain, out, st =>
    match opP st with
    | (none, st1) => .ok (some out, st1)
    | (some op, st1) =>
      match childP st1 with
      | .error e => .error e
      | .ok (right, st2) =>
        if op.kind = .BinaryOpExpr then
          let out2 := op.upd (fun d => { d with lhs := some out, rhs := right })
          match chain with
          | .Once => .ok (some out2, st2)
          | .Infinity => binOpLoop opP childP fl chain out2 st2
        else .error .unreachableHit

/-- ast_parse_binary_op_expr: the generic precedence-climbing routine,
parameterized by the operator parser and the child (higher-tier) parser.
The child is parsed first; null propagates. -/
def ast_parse_binary_op_expr (fuel : Nat) (chain : BinaryOpChain)
    (opP : PState → Option AstNode × PState) (childP : PState → PRes) (st : PState) : PRes :=
  match childP st with
  | .error e => .error e
  | .ok (none, st1) => .ok (none, st1)
  | .ok (some out, st1) => binOpLoop opP childP fuel chain out st1

/-- ast_parse_block_label: IDENTIFIER COLON.  Note that when the colon is
missing the already-chomped identifier is *not* un-consumed (the source
frees the token and returns null with the cursor still advanced). -/
def ast_parse_block_label (st : PState) : Option Token × PState :=
  match parser_chomp_if st .IDENTIFIER with
  | (none, st1) => (none, st1)
  | (some ident, st1) =>
    match parser_chomp_if st1 .COLON with
    | (none, st2) => (none, st2)
    | (some _, st2) => (some ident, st2)

/-- ast_parse_break_label: COLON IDENTIFIER (the identifier is expected,
so its absence panics). -/
def ast_parse_break_label (st : PState) : Except PErr (Option Token × PState) :=
  match parser_chomp_if st .COLON with
  | (none, st1) => .ok (none, st1)
  | (some _, st1) =>
    match parser_expect_token st1 .IDENTIFIER with
    | .error e => .error e
    | .ok (ident, st2) => .ok (some ident, st2)

/-- Modelled from the spec: ast_parse_prefix_type_op is absent from src
and the spec names no prefix type operators, so it never matches. -/
def ast_parse_prefix_type_op (st : PState) : Option AstNode × PState := (none, st)

/-- Modelled from the spec: ast_parse_prefix_op_expr is absent from src;
§4.2 gives `PrefixExpr := PrefixOp* SuffixExpr` (the source comment says
`PrefixOp? PrimaryExpr`), modelled as one optional prefix operator
wrapping the child. -/
def ast_parse_prefix_op_expr (opP : PState → Option AstNode × PState)
    (childP : PState → PRes) (st : PState) : PRes :=
  match opP st with
  | (none, st1) =>
    childP st1
  | (some op, st1) =>
    match childP st1 with
    | .error e => .error e
    | .ok (child, st2) => .ok (some (op.upd (fun d => { d with expr := child })), st2)

/-- Modelled from the spec: ast_parse_suffix_op is absent from src and the
spec gives no token grammar for suffix operators (SliceExpr), so it never
matches. -/
def ast_parse_suffix_op (st : PState) : Option AstNode × PState := (none, st)

/-- Modelled from the spec: ast_parse_if_type_expr is absent from src and
the spec gives no grammar for it; modelled as never matching. -/
def ast_parse_if_type_expr (st : PState) : PRes := .ok (none, st)

/-- Modelled from the spec: ast_parse_loop_c_statement is absent from src
and the spec's `LoopStmt := 'inline'? (LoopC | LoopWhile | LoopIn)` gives
no productions for the three loop forms; modelled as never matching. -/
def ast_parse_loop_c_statement (st : PState) : PRes := .ok (none, st)

/-- Modelled from the spec: see `ast_parse_loop_c_statement`. -/
def ast_parse_loop_while_statement (st : PState) : PRes := .ok (none, st)

/-- Modelled from the spec: see `ast_parse_loop_c_statement`. -/
def ast_parse_loop_in_statement (st : PState) : PRes := .ok (none, st)

/-- The comma-separated continuation of ast_parse_list. -/
def listLoop (itemP : PState → PRes) :
    Nat → List AstNode → PState → Except PErr (List AstNode × PState)
  | 0, _, _ => .error .outOfFuel
  | fl + 1, acc, st =>
    match parser_chomp_if st .COMMA with
    | (none, st1) => .ok (acc, st1)
    | (some _, st1) =>
      match itemP st1 with
      | .error e => .error e
      | .ok (none, st2) => .ok (acc, st2)
      | .ok (some item, st2) => listLoop itemP fl (acc ++ [item]) st2

/-- Modelled from the spec: ast_parse_list is absent from src (its two
call sites pass a separator kind and an item parser); modelled as the
spec's `X (',' X)*` lists — items separated by commas, stopping when the
item parser returns null. -/
def ast_parse_list (itemP : PState → PRes) :
    Nat → PState → Except PErr (List AstNode × PState)
  | 0, _ => .error .outOfFuel
  | fl + 1, st =>
    match itemP st with
    | .error e => .error e
    | .ok (none, st1) => .ok ([], st1)
    | .ok (some item, st1) => listLoop itemP fl [item] st1

/-- Modelled from the spec: ast_parse_if_expr_helper is absent from src;
§4.2 gives `IfStmt := 'if' '(' Expr ')' body ('else' ...)?`, modelled with
the supplied body parser.  Only the leading `if` test matters for the
claims: when the current token is not `if` the helper returns null without
consuming. -/
def ast_parse_if_expr_helper (bodyP : PState → PRes) (st : PState) : PRes :=
  match parser_chomp_if st .IF with
  | (none, st1) => .ok (none, st1)
  | (some _, st1) =>
    match parser_expect_token st1 .LPAREN with
    | .error e => .error e
    | .ok (_, st2) =>
      match bodyP st2 with
      | .error e => .error e
      | .ok (cond, st3) =>
        match parser_expect_token st3 .RPAREN with
        | .error e => .error e
        | .ok (_, st4) =>
          match bodyP st4 with
          | .error e => .error e
          | .ok (thenB, st5) =>
            match parser_chomp_if st5 .ELSE with
            | (none, st6) =>
              .ok (some ((ast_create_node .IfExpr).upd (fun d =>
                { d with cond := cond, thenB := thenB, hasElse := false })), st6)
            | (some _, st6) =>
              match bodyP st6 with
              | .error e => .error e
              | .ok (elseB, st7) =>
                .ok (some ((ast_create_node .IfExpr).upd (fun d =>
                  { d with cond := cond, thenB := thenB, hasElse := true,
                           elseB := elseB })), st7)

/-- The variadic-argument validation loop of ast_parse_func_prototype
(lines 114-126).  Note the source's stray semicolon after
`if(param_decl->...is_var_args);` — the guard is a no-op, so
`is_var_args` is set for every parameter, and any prototype with two or
more parameters trips the multiple-variadic error. -/
def protoVarargsLoop : List AstNode → Nat → Nat → AstNode → Except PErr AstNode
  | [], _, _, out => .ok out
  | p :: rest, i, total, out =>
    if p.kind = .ParamDecl then
      let out2 := out.upd (fun d => { d with isVarArgs := true })
      if i ≠ total - 1 ∧ out2.data.isVarArgs then
        .error (.parseError "Cannot have multiple variadic arguments in function prototype")
      else protoVarargsLoop rest (i + 1) total out2
    else .error .checkFail




/-- Chomp the first matching kind of a list (a chain of chomp_ifs). -/
def chompIfAny (ks : List TokenKind) (st : PState) : Option Token × PState :=
  match ks with
  | [] => (none, st)
  | k :: rest =>
    match parser_chomp_if st k with
    | (some t, st1) => (some t, st1)
    | (none, _) => chompIfAny rest st

/-- The assignment operator kinds of the AssignmentOp comment above
ast_parse_assignment_expr (lines 350-365). -/
def assignOps : List TokenKind :=
  [.MULT_EQUALS, .SLASH_EQUALS, .MOD_EQUALS, .PLUS_EQUALS, .MINUS_EQUALS,
   .LBITSHIFT_EQUALS, .RBITSHIFT_EQUALS, .AND_EQUALS, .XOR_EQUALS, .OR_EQUALS,
   .TILDA, .TILDA_EQUALS, .EQUALS]

/-- ast_parse_loop_statement: `inline`? then the three loop forms.  The
loop_in branch checks the kind against LoopWhileExpr — the source's own
line.  After all three fail, a leading `inline` panics
(ErrorUnexpectedToken); with no `inline` the function falls off the end
(missing return), read per the spec's modelling note as returning null. -/
def ast_parse_loop_statement (st : PState) : PRes :=
  let (inline_token, st1) := parser_chomp_if st .INLINE
  match ast_parse_loop_c_statement st1 with
  | .error e => .error e
  | .ok (some n, st2) =>
    if n.kind = .LoopCExpr then
      .ok (some (n.upd (fun d => { d with isInline := inline_token.isSome })), st2)
    else .error .checkFail
  | .ok (none, st2) =>
    match ast_parse_loop_while_statement st2 with
    | .error e => .error e
    | .ok (some n, st3) =>
      if n.kind = .LoopWhileExpr then
        .ok (some (n.upd (fun d => { d with isInline := inline_token.isSome })), st3)
      else .error .checkFail
    | .ok (none, st3) =>
      match ast_parse_loop_in_statement st3 with
      | .error e => .error e
      | .ok (some n, st4) =>
        if n.kind = .LoopWhileExpr then
          .ok (some (n.upd (fun d => { d with isInline := inline_token.isSome })), st4)
        else .error .checkFail
      | .ok (none, st4) =>
        match inline_token with
        | some _ => .error .unexpectedToken
        | none => .ok (none, st4)

mutual

/-- ast_parse_func_prototype: `func` IDENT? `(` ParamList `)` TypeExpr.
The source's list and RPAREN-expect calls pass the params vector where the
parser is expected (broken fragment); modelled per the spec's
FuncPrototype production with the parser threaded through.  A missing
identifier is dereferenced (`identifier->value`) when the prototype is
built.  The trailing loop is `protoVarargsLoop`. -/
def ast_parse_func_prototype : Nat → PState → PRes
  | 0, _ => .error .outOfFuel
  | fl + 1, st =>
    match parser_chomp_if st .FUNC with
    | (none, st1) => .ok (none, st1)
    | (some _, st1) =>
      let (identifier, st2) := parser_chomp_if st1 .IDENTIFIER
      match parser_expect_token st2 .LPAREN with
      | .error e => .error e
      | .ok (_, st3) =>
        match ast_parse_list (fun s => ast_parse_param_decl fl s) fl st3 with
        | .error e => .error e
        | .ok (params, st4) =>
          match parser_expect_token st4 .RPAREN with
          | .error e => .error e
          | .ok (_, st5) =>
            match ast_parse_type_expr fl st5 with
            | .error e => .error e
            | .ok (none, _) => .error (.parseError "expected return type; found`%s`")
            | .ok (some return_type, st6) =>
              match tokValue identifier with
              | .error e => .error e
              | .ok nm =>
                match protoVarargsLoop params 0 params.length
                    ((ast_create_node .FuncPrototype).upd (fun d =>
                      { d with name := some nm, children := params,
                               retType := some return_type })) with
                | .error e => .error e
                | .ok out2 => .ok (some out2, st6)

/-- Modelled from the spec: ast_parse_param_decl is absent from src; §4.2
gives the ParamDecl production as an optional ellipsis, a TypeExpr and an
identifier. -/
def ast_parse_param_decl : Nat → PState → PRes
  | 0, _ => .error .outOfFuel
  | fl + 1, st =>
    let (ellipsis, st1) := parser_chomp_if st .ELLIPSIS
    match ast_parse_type_expr fl st1 with
    | .error e => .error e
    | .ok (_, st2) =>
      match parser_chomp_if st2 .IDENTIFIER with
      | (none, st3) => .ok (none, st3)
      | (some _, st3) =>
        .ok (some ((ast_create_node .ParamDecl).upd (fun d =>
          { d with isVarArgs := ellipsis.isSome })), st3)

/-- ast_parse_var_decl: `export`? `mutable`? `const`? TypeExpr? IDENT
(`=` Expr)? `;`.  Both qualifiers together panic with the conflict
message before anything else is parsed.  With no `=`, the C reads the
uninitialized stack variable `expr` when building the node; modelled as
null.  The parsed type expression is discarded (the node stores no type). -/
def ast_parse_var_decl : Nat → PState → PRes
  | 0, _ => .error .outOfFuel
  | fl + 1, st =>
    let (export_kwd, st1) := parser_chomp_if st .EXPORT
    let (mutable_kwd, st2) := parser_chomp_if st1 .MUTABLE
    let (const_kwd, st3) := parser_chomp_if st2 .CONST
    if mutable_kwd.isSome ∧ const_kwd.isSome then .error (.parseError conflictMsg)
    else
      match ast_parse_type_expr fl st3 with
      | .error e => .error e
      | .ok (_, st4) =>
        match parser_expect_token st4 .IDENTIFIER with
        | .error e => .error e
        | .ok (identifier, st5) =>
          let (equals, st6) := parser_chomp_if st5 .EQUALS
          match (match equals with
                 | some _ => ast_parse_expr fl st6
                 | none => (.ok (none, st6) : PRes)) with
          | .error e => .error e
          | .ok (expr, st7) =>
            match parser_expect_token st7 .SEMICOLON with
            | .error e => .error e
            | .ok (_, st8) =>
              .ok (some ((ast_create_node .VarDecl).upd (fun d =>
                { d with name := some identifier.value,
                         isExport := export_kwd.isSome,
                         isMutable := mutable_kwd.isSome,
                         isConst := const_kwd.isSome,
                         expr := expr })), st8)

/-- ast_parse_statement: VarDecl, else defer, if, labeled, match,
assignment, in that order. -/
def ast_parse_statement : Nat → PState → PRes
  | 0, _ => .error .outOfFuel
  | fl + 1, st =>
    match ast_parse_var_decl fl st with
    | .error e => .error e
    | .ok (some var_decl, st1) =>
      if var_decl.kind = .VarDecl then .ok (some var_decl, st1)
      else .error .checkFail
    | .ok (none, st1) =>
      match parser_chomp_if st1 .DEFER with
      | (some _, st2) =>
        match ast_parse_block_expr_statement fl st2 with
        | .error e => .error e
        | .ok (statement, st3) =>
          .ok (some ((ast_create_node .Defer).upd (fun d =>
            { d with expr := statement })), st3)
      | (none, st2) =>
        match ast_parse_if_statement fl st2 with
        | .error e => .error e
        | .ok (some n, st3) => .ok (some n, st3)
        | .ok (none, st3) =>
          match ast_parse_labeled_statements fl st3 with
          | .error e => .error e
          | .ok (some n, st4) => .ok (some n, st4)
          | .ok (none, st4) =>
            match ast_parse_match_expr fl st4 with
            | .error e => .error e
            | .ok (some n, st5) => .ok (some n, st5)
            | .ok (none, st5) =>
              match ast_parse_assignment_expr fl st5 with
              | .error e => .error e
              | .ok (some n, st6) => .ok (some n, st6)
              | .ok (none, st6) => .ok (none, st6)

/-- ast_parse_if_prefix: `if` `(` Expr `)`, producing the IfExpr node
(the source's ast_clone_node(AstNodeKindIfExpr) is read per the spec's
modelling note as ast_create_node). -/
def ast_parse_if_prefix : Nat → PState → PRes
  | 0, _ => .error .outOfFuel
  | fl + 1, st =>
    match parser_chomp_if st .IF with
    | (none, st1) => .ok (none, st1)
    | (some _, st1) =>
      match parser_expect_token st1 .LPAREN with
      | .error e => .error e
      | .ok (_, st2) =>
        match ast_parse_expr fl st2 with
        | .error e => .error e
        | .ok (condition, st3) =>
          match parser_expect_token st3 .RPAREN with
          | .error e => .error e
          | .ok (_, st4) =>
            .ok (some ((ast_create_node .IfExpr).upd (fun d =>
              { d with cond := condition })), st4)

/-- ast_parse_if_statement: IfPrefix, then a body (BlockExpr, else
AssignmentExpr, else panic), then `else` Statement?. -/
def ast_parse_if_statement : Nat → PState → PRes
  | 0, _ => .error .outOfFuel
  | fl + 1, st =>
    match ast_parse_if_prefix fl st with
    | .error e => .error e
    | .ok (none, st1) => .ok (none, st1)
    | .ok (some out, st1) =>
      match ast_parse_block_expr fl st1 with
      | .error e => .error e
      | .ok (bodyOpt, st2) =>
        match (match bodyOpt with
               | some b => (.ok (some b, st2) : PRes)
               | none => ast_parse_assignment_expr fl st2) with
        | .error e => .error e
        | .ok (none, _) => .error (.parseError "expected `if` body; found `%s`")
        | .ok (some body, st3) =>
          match parser_chomp_if st3 .ELSE with
          | (none, st4) =>
            .ok (some (out.upd (fun d =>
              { d with thenB := some body, hasElse := false, elseB := none })), st4)
          | (some _, st4) =>
            match ast_parse_statement fl st4 with
            | .error e => .error e
            | .ok (else_body, st5) =>
              .ok (some (out.upd (fun d =>
                { d with thenB := some body, hasElse := else_body.isSome,
                         elseB := else_body })), st5)

/-- ast_parse_labeled_statements: BlockLabel? then Block or LoopStmt.  In
both success branches the source reads `label->value` without a null
check; an unlabeled block or loop that succeeded here would dereference
null.  When nothing matches, a present label panics
(ErrorUnexpectedToken). -/
def ast_parse_labeled_statements : Nat → PState → PRes
  | 0, _ => .error .outOfFuel
  | fl + 1, st =>
    let (label, st1) := ast_parse_block_label st
    match ast_parse_block fl st1 with
    | .error e => .error e
    | .ok (some block, st2) =>
      if block.kind = .Block then
        match tokValue label with
        | .error e => .error e
        | .ok v => .ok (some (block.upd (fun d => { d with name := some v })), st2)
      else .error .checkFail
    | .ok (none, st2) =>
      match ast_parse_loop_statement st2 with
      | .error e => .error e
      | .ok (some loop, st3) =>
        match tokValue label with
        | .error e => .error e
        | .ok v => .ok (some (loop.upd (fun d => { d with name := some v })), st3)
      | .ok (none, st3) =>
        match label with
        | some _ => .error .unexpectedToken
        | none => .ok (none, st3)

/-- ast_parse_block_expr_statement: BlockExpr, else AssignmentExpr `;`. -/
def ast_parse_block_expr_statement : Nat → PState → PRes
  | 0, _ => .error .outOfFuel
  | fl + 1, st =>
    match ast_parse_block_expr fl st with
    | .error e => .error e
    | .ok (some block, st1) => .ok (some block, st1)
    | .ok (none, st1) =>
      match ast_parse_assignment_expr fl st1 with
      | .error e => .error e
      | .ok (some ae, st2) =>
        match parser_expect_token st2 .SEMICOLON with
        | .error e => .error e
        | .ok (_, st3) => .ok (some ae, st3)
      | .ok (none, st2) => .ok (none, st2)

/-- ast_parse_block_expr: BlockLabel? Block.  With a label present the
CORETEN_CHECK dereferences the block result before any null test, so a
null block is a null dereference. -/
def ast_parse_block_expr : Nat → PState → PRes
  | 0, _ => .error .outOfFuel
  | fl + 1, st =>
    let (block_label, st1) := ast_parse_block_label st
    match block_label with
    | some lbl =>
      match ast_parse_block fl st1 with
      | .error e => .error e
      | .ok (none, _) => .error .nullDeref
      | .ok (some out, st2) =>
        if out.kind = .Block then
          .ok (some (out.upd (fun d => { d with name := some lbl.value })), st2)
        else .error .checkFail
    | none => ast_parse_block fl st1

/-- ast_parse_block: `{` Statement* `}` — the loop runs until
ast_parse_statement returns null. -/
def ast_parse_block : Nat → PState → PRes
  | 0, _ => .error .outOfFuel
  | fl + 1, st =>
    match parser_chomp_if st .LBRACE with
    | (none, st1) => .ok (none, st1)
    | (some _, st1) =>
      match blockStmtsLoop fl [] st1 with
      | .error e => .error e
      | .ok (statements, st2) =>
        match parser_expect_token st2 .RBRACE with
        | .error e => .error e
        | .ok (_, st3) =>
          .ok (some ((ast_create_node .Block).upd (fun d =>
            { d with children := statements })), st3)

/-- The statement-collecting while loop of ast_parse_block. -/
def blockStmtsLoop : Nat → List AstNode → PState → Except PErr (List AstNode × PState)
  | 0, _, _ => .error .outOfFuel
  | fl + 1, acc, st =>
    match ast_parse_statement fl st with
    | .error e => .error e
    | .ok (some n, st1) => blockStmtsLoop fl (acc ++ [n]) st1
    | .ok (none, st1) => .ok (acc, st1)

/-- Modelled from the spec: ast_parse_assignment_expr's body is a broken
one-argument call to the four-argument ast_parse_binary_op_expr; the
spec's modelling note (assignment as a separate top-level
right-associative production, per the grammar comment above the function)
is used instead. -/
def ast_parse_assignment_expr : Nat → PState → PRes
  | 0, _ => .error .outOfFuel
  | fl + 1, st =>
    match ast_parse_expr fl st with
    | .error e => .error e
    | .ok (none, st1) => .ok (none, st1)
    | .ok (some lhs, st1) =>
      match chompIfAny assignOps st1 with
      | (none, st2) => .ok (some lhs, st2)
      | (some _, st2) =>
        match ast_parse_assignment_expr fl st2 with
        | .error e => .error e
        | .ok (rhs, st3) =>
          .ok (some ((ast_create_node .BinaryOpExpr).upd (fun d =>
            { d with lhs := some lhs, rhs := rhs })), st3)

/-- Modelled from the spec: ast_parse_expr is absent from src; §4.2 gives
the Expr production as BoolOrExpr. -/
def ast_parse_expr : Nat → PState → PRes
  | 0, _ => .error .outOfFuel
  | fl + 1, st => ast_parse_bool_or_expr fl st

/-- ast_parse_bool_and_expr: `and` chain over ast_parse_bool_or_expr (the
source's own child choice). -/
def ast_parse_bool_and_expr : Nat → PState → PRes
  | 0, _ => .error .outOfFuel
  | fl + 1, st =>
    ast_parse_binary_op_expr fl .Infinity ast_parse_boolean_and_op
      (fun s => ast_parse_bool_or_expr fl s) st

/-- ast_parse_bool_or_expr: `or` chain over ast_parse_comparison_expr. -/
def ast_parse_bool_or_expr : Nat → PState → PRes
  | 0, _ => .error .outOfFuel
  | fl + 1, st =>
    ast_parse_binary_op_expr fl .Infinity ast_parse_boolean_or_op
      (fun s => ast_parse_comparison_expr fl s) st

/-- ast_parse_comparison_expr: one comparison (chain Once) over
ast_parse_bitwise_expr. -/
def ast_parse_comparison_expr : Nat → PState → PRes
  | 0, _ => .error .outOfFuel
  | fl + 1, st =>
    ast_parse_binary_op_expr fl .Once ast_parse_comparison_op
      (fun s => ast_parse_bitwise_expr fl s) st

/-- ast_parse_bitwise_expr: bitwise chain over ast_parse_bitshift_expr. -/
def ast_parse_bitwise_expr : Nat → PState → PRes
  | 0, _ => .error .outOfFuel
  | fl + 1, st =>
    ast_parse_binary_op_expr fl .Infinity ast_parse_bitwise_op
      (fun s => ast_parse_bitshift_expr fl s) st

/-- ast_parse_bitshift_expr: shift chain over ast_parse_addition_expr. -/
def ast_parse_bitshift_expr : Nat → PState → PRes
  | 0, _ => .error .outOfFuel
  | fl + 1, st =>
    ast_parse_binary_op_expr fl .Infinity ast_parse_bitshift_op
      (fun s => ast_parse_addition_expr fl s) st

/-- ast_parse_addition_expr: additive chain over
ast_parse_multiplication_expr. -/
def ast_parse_addition_expr : Nat → PState → PRes
  | 0, _ => .error .outOfFuel
  | fl + 1, st =>
    ast_parse_binary_op_expr fl .Infinity ast_parse_addition_op
      (fun s => ast_parse_multiplication_expr fl s) st

/-- ast_parse_multiplication_expr: multiplicative chain whose child is
ast_parse_bitwise_expr — the source's own choice, closing the
bitwise → bitshift → addition → multiplication → bitwise cycle. -/
def ast_parse_multiplication_expr : Nat → PState → PRes
  | 0, _ => .error .outOfFuel
  | fl + 1, st =>
    ast_parse_binary_op_expr fl .Infinity ast_parse_multiplication_op
      (fun s => ast_parse_bitwise_expr fl s) st

/-- ast_parse_type_expr: PrefixTypeOp* SuffixExpr, through the generic
prefix-op routine. -/
def ast_parse_type_expr : Nat → PState → PRes
  | 0, _ => .error .outOfFuel
  | fl + 1, st =>
    ast_parse_prefix_op_expr ast_parse_prefix_type_op
      (fun s => ast_parse_suffix_expr fl s) st

/-- ast_parse_suffix_expr: PrimaryTypeExpr then the suffix/call loop. -/
def ast_parse_suffix_expr : Nat → PState → PRes
  | 0, _ => .error .outOfFuel
  | fl + 1, st =>
    match ast_parse_primary_type_expr fl st with
    | .error e => .error e
    | .ok (none, st1) => .ok (none, st1)
    | .ok (some out, st1) => suffixLoop fl out st1

/-- The while(true) loop of ast_parse_suffix_expr: suffix operators
(SliceExpr; anything else is unreachable()) and call arguments are folded
into the running node until neither matches. -/
def suffixLoop : Nat → AstNode → PState → PRes
  | 0, _, _ => .error .outOfFuel
  | fl + 1, out, st =>
    match ast_parse_suffix_op st with
    | (some sfx, st1) =>
      if sfx.kind = .SliceExpr then
        suffixLoop fl (sfx.upd (fun d => { d with lhs := some out })) st1
      else .error .unreachableHit
    | (none, st1) =>
      match ast_parse_func_call_args fl st1 with
      | .error e => .error e
      | .ok (some call, st2) =>
        if call.kind = .FuncCallExpr then
          suffixLoop fl (call.upd (fun d => { d with lhs := some out })) st2
        else .error .checkFail
      | .ok (none, st2) => .ok (some out, st2)

/-- ast_parse_primary_type_expr: the literal/identifier/prototype chain.
Both boolean branches of the source test TOK_TRUE (its own `false` line),
and the final alternative calls the (typo-named) past_parse_match_expr,
read per the spec as ast_parse_match_expr. -/
def ast_parse_primary_type_expr : Nat → PState → PRes
  | 0, _ => .error .outOfFuel
  | fl + 1, st =>
    match parser_chomp_if st .CHAR with
    | (some _, st1) => .ok (some (ast_create_node .CharLiteral), st1)
    | (none, st1) =>
      match parser_chomp_if st1 .FLOAT_LIT with
      | (some _, st2) => .ok (some (ast_create_node .FloatLiteral), st2)
      | (none, st2) =>
        match ast_parse_func_prototype fl st2 with
        | .error e => .error e
        | .ok (some fp, st3) => .ok (some fp, st3)
        | .ok (none, st3) =>
          match parser_chomp_if st3 .IDENTIFIER with
          | (some _, st4) => .ok (some (ast_create_node .Identifier), st4)
          | (none, st4) =>
            match ast_parse_if_type_expr st4 with
            | .error e => .error e
            | .ok (some it, st5) => .ok (some it, st5)
            | .ok (none, st5) =>
              match parser_chomp_if st5 .INTEGER with
              | (some _, st6) => .ok (some (ast_create_node .IntLiteral), st6)
              | (none, st6) =>
                match parser_chomp_if st6 .TOK_TRUE with
                | (some _, st7) =>
                  .ok (some ((ast_create_node .BoolLiteral).upd (fun d =>
                    { d with boolValue := true })), st7)
                | (none, st7) =>
                  match parser_chomp_if st7 .TOK_TRUE with
                  | (some _, st8) =>
                    .ok (some ((ast_create_node .BoolLiteral).upd (fun d =>
                      { d with boolValue := false })), st8)
                  | (none, st8) =>
                    match parser_chomp_if st8 .UNREACHABLE with
                    | (some _, st9) => .ok (some (ast_create_node .Unreachable), st9)
                    | (none, st9) =>
                      match parser_chomp_if st9 .STRING with
                      | (some _, st10) => .ok (some (ast_create_node .StringLiteral), st10)
                      | (none, st10) =>
                        match ast_parse_match_expr fl st10 with
                        | .error e => .error e
                        | .ok (some m, st11) => .ok (some m, st11)
                        | .ok (none, st11) => .ok (none, st11)

/-- ast_parse_primary_expr: IfExpr, `break`, `continue`, `return`, Block.
The break branch dereferences `label->value` unconditionally.  The
continue branch computes `label == null ? label->value : null` — the
dereference happens exactly when the label is null — builds a Continue
node, and then falls through (no return) into the `return`/Block lookups. -/
def ast_parse_primary_expr : Nat → PState → PRes
  | 0, _ => .error .outOfFuel
  | fl + 1, st =>
    let tail : PState → PRes := fun stq =>
      match parser_chomp_if stq .RETURN with
      | (some _, stA) =>
        match ast_parse_expr fl stA with
        | .error e => .error e
        | .ok (expr, stB) =>
          .ok (some ((ast_create_node .Return).upd (fun d =>
            { d with expr := expr })), stB)
      | (none, stA) =>
        match ast_parse_block fl stA with
        | .error e => .error e
        | .ok (some block, stB) => .ok (some block, stB)
        | .ok (none, stB) => .ok (none, stB)
    match ast_parse_if_expr fl st with
    | .error e => .error e
    | .ok (some n, st1) => .ok (some n, st1)
    | .ok (none, st1) =>
      match parser_chomp_if st1 .BREAK with
      | (some _, st2) =>
        match ast_parse_break_label st2 with
        | .error e => .error e
        | .ok (label, st3) =>
          match ast_parse_expr fl st3 with
          | .error e => .error e
          | .ok (expr, st4) =>
            match tokValue label with
            | .error e => .error e
            | .ok v =>
              .ok (some ((ast_create_node .Break).upd (fun d =>
                { d with name := some v, branchKind := some .Break,
                         expr := expr })), st4)
      | (none, st2) =>
        match parser_chomp_if st2 .CONTINUE with
        | (some _, st3) =>
          match ast_parse_break_label st3 with
          | .error e => .error e
          | .ok (label, st4) =>
            match label with
            | none => .error .nullDeref
            | some _ => tail st4
        | (none, st3) => tail st3

/-- ast_parse_if_expr: the helper applied with ast_parse_expr as the
body parser. -/
def ast_parse_if_expr : Nat → PState → PRes
  | 0, _ => .error .outOfFuel
  | fl + 1, st =>
    ast_parse_if_expr_helper (fun s => ast_parse_expr fl s) st

/-- ast_parse_match_expr: `match` `(`? Expr `)`? `{` branch list `}` —
the parentheses are optional, the braces are expected. -/
def ast_parse_match_expr : Nat → PState → PRes
  | 0, _ => .error .outOfFuel
  | fl + 1, st =>
    match parser_chomp_if st .MATCH with
    | (none, st1) => .ok (none, st1)
    | (some _, st1) =>
      let (_, st2) := parser_chomp_if st1 .LPAREN
      match ast_parse_expr fl st2 with
      | .error e => .error e
      | .ok (expr, st3) =>
        let (_, st4) := parser_chomp_if st3 .RPAREN
        match parser_expect_token st4 .LBRACE with
        | .error e => .error e
        | .ok (_, st5) =>
          match ast_parse_list (fun s => ast_parse_match_branch fl s) fl st5 with
          | .error e => .error e
          | .ok (branches, st6) =>
            match parser_expect_token st6 .RBRACE with
            | .error e => .error e
            | .ok (_, st7) =>
              .ok (some ((ast_create_node .MatchExpr).upd (fun d =>
                { d with expr := expr, children := branches })), st7)

/-- ast_parse_match_branch: a case, then `:` or `=>`, then an assignment
expression.  The CORETEN_CHECK on the case's kind runs before the null
test, so a null case is a null dereference. -/
def ast_parse_match_branch : Nat → PState → PRes
  | 0, _ => .error .outOfFuel
  | fl + 1, st =>
    match ast_parse_match_case_kwd fl st with
    | .error e => .error e
    | .ok (none, _) => .error .nullDeref
    | .ok (some out, st1) =>
      if out.kind = .MatchBranch then
        let (colon, st2) := parser_chomp_if st1 .COLON
        let (equals_arrow, st3) := parser_chomp_if st2 .EQUALS_ARROW
        if colon.isNone ∧ equals_arrow.isNone then
          .error (.parseError "Missing token after `case`. Either `:` or `=>`")
        else
          match ast_parse_assignment_expr fl st3 with
          | .error e => .error e
          | .ok (expr, st4) =>
            .ok (some (out.upd (fun d => { d with expr := expr })), st4)
      else .error .checkFail

/-- ast_parse_match_case_kwd: MatchItem (`,` MatchItem)*, collected by
matchItemsLoop.  With no first item the function falls off the end
(missing return), read per the spec's modelling note as returning null. -/
def ast_parse_match_case_kwd : Nat → PState → PRes
  | 0, _ => .error .outOfFuel
  | fl + 1, st =>
    match ast_parse_match_item fl st with
    | .error e => .error e
    | .ok (some match_item, st1) =>
      matchItemsLoop fl ((ast_create_node .MatchBranch).upd (fun d =>
        { d with children := [match_item] })) st1
    | .ok (none, st1) => .ok (none, st1)

/-- The comma loop of ast_parse_match_case_kwd. -/
def matchItemsLoop : Nat → AstNode → PState → PRes
  | 0, _, _ => .error .outOfFuel
  | fl + 1, out, st =>
    match parser_chomp_if st .COMMA with
    | (none, st1) => .ok (some out, st1)
    | (some _, st1) =>
      match ast_parse_match_item fl st1 with
      | .error e => .error e
      | .ok (none, st2) => .ok (some out, st2)
      | .ok (some item, st2) =>
        matchItemsLoop fl (out.upd (fun d =>
          { d with children := d.children ++ [item] })) st2

/-- Modelled from the spec: ast_parse_match_item is absent from src and
§4.2 gives no MatchItem production beyond its use as an expression in a
match case; modelled as Expr. -/
def ast_parse_match_item : Nat → PState → PRes
  | 0, _ => .error .outOfFuel
  | fl + 1, st => ast_parse_expr fl st

/-- Modelled from the spec: ast_parse_func_call_args is absent from src;
§4.2 gives FuncCallArgs as a parenthesized, comma-separated expression
list (empty allowed). -/
def ast_parse_func_call_args : Nat → PState → PRes
  | 0, _ => .error .outOfFuel
  | fl + 1, st =>
    match parser_chomp_if st .LPAREN with
    | (none, st1) => .ok (none, st1)
    | (some _, st1) =>
      if (parser_peek_token st1).kind = .RPAREN then
        .ok (some (ast_create_node .FuncCallExpr), (parser_chomp st1).2)
      else
        match ast_parse_list (fun s => ast_parse_expr fl s) fl st1 with
        | .error e => .error e
        | .ok (args, st2) =>
          match parser_expect_token st2 .RPAREN with
          | .error e => .error e
          | .ok (_, st3) =>
            .ok (some ((ast_create_node .FuncCallExpr).upd (fun d =>
              { d with children := args })), st3)

end

/-! Theorems about the parser embedding. -/

/-- The four cyclic expression tiers fail together, for every fuel: each
tier's generic routine first calls its child tier at decremented fuel and
no tokens are consumed in between, so the recursion bottoms out at fuel 0
on every input. -/
theorem tierCycleDiverges : ∀ fl : Nat, ∀ st : PState,
    ast_parse_bitwise_expr fl st = .error .outOfFuel ∧
    ast_parse_bitshift_expr fl st = .error .outOfFuel ∧
    ast_parse_addition_expr fl st = .error .outOfFuel ∧
    ast_parse_multiplication_expr fl st = .error .outOfFuel := by
  intro fl
  induction fl with
  | zero => intro st; exact ⟨rfl, rfl, rfl, rfl⟩
  | succ fk ih =>
    intro st
    refine ⟨?_, ?_, ?_, ?_⟩
    · have hb := (ih st).2.1
      simp only [ast_parse_bitwise_expr, ast_parse_binary_op_expr, hb]
    · have hb := (ih st).2.2.1
      simp only [ast_parse_bitshift_expr, ast_parse_binary_op_expr, hb]
    · have hb := (ih st).2.2.2
      simp only [ast_parse_addition_expr, ast_parse_binary_op_expr, hb]
    · have hb := (ih st).1
      simp only [ast_parse_multiplication_expr, ast_parse_binary_op_expr, hb]

/-- True exactly on a completed parse whose node is null. -/
def isOkNone : PRes → Bool
  | .ok (none, _) => true
  | _ => false

/-- True exactly on a completed parse whose node is non-null. -/
def isOkSome : PRes → Bool
  | .ok (some _, _) => true
  | _ => false

/-- True exactly on a completed statement-list collection. -/
def isLoopOk : Except PErr (List AstNode × PState) → Bool
  | .ok _ => true
  | _ => false

/-- ast_parse_var_decl never completes with a null node: every return
path either panics or builds the VarDecl node. -/
theorem var_decl_not_none (fl : Nat) (st : PState) :
    isOkNone (ast_parse_var_decl fl st) = false := by
  match fl with
  | 0 => rfl
  | fl + 1 =>
    simp only [ast_parse_var_decl]
    repeat' split
    all_goals rfl

/-- ast_parse_statement never completes with a null node: its first
alternative, ast_parse_var_decl, already never does, and a non-null
var_decl is returned at once. -/
theorem statement_not_none (fl : Nat) (st : PState) :
    isOkNone (ast_parse_statement fl st) = false := by
  match fl with
  | 0 => rfl
  | fl + 1 =>
    simp only [ast_parse_statement]
    cases h : ast_parse_var_decl fl st with
    | error e => rfl
    | ok p =>
      obtain ⟨o, s1⟩ := p
      cases o with
      | some vd =>
        dsimp only
        split
        · rfl
        · rfl
      | none =>
        have := var_decl_not_none fl st
        rw [h] at this
        simp [isOkNone] at this

/-- The statement loop of ast_parse_block never completes: it only exits
its recursion when ast_parse_statement returns a null node, which never
happens. -/
theorem blockStmtsLoop_not_ok (fl : Nat) (acc : List AstNode) (st : PState) :
    isLoopOk (blockStmtsLoop fl acc st) = false := by
  induction fl generalizing acc st with
  | zero => rfl
  | succ fk ih =>
    simp only [blockStmtsLoop]
    cases h : ast_parse_statement fk st with
    | error e => rfl
    | ok p =>
      obtain ⟨o, s1⟩ := p
      cases o with
      | some n => exact ih (acc ++ [n]) s1
      | none =>
        have := statement_not_none fk st
        rw [h] at this
        simp [isOkNone] at this

/-- A token of the given kind with zeroed location and empty value. -/
def mkTok (k : TokenKind) : Token := ⟨k, 0, 0, 0, []⟩

/-- C4 (code bug): the spec expects the expression `1 + 2 * 3` (token
kinds INTEGER PLUS INTEGER MULT INTEGER) to parse, with the
multiplication tier binding tighter than the addition tier.  In the code
the tier chain is cyclic — ast_parse_multiplication_expr's child parser is
ast_parse_bitwise_expr, whose chain leads back to multiplication — and
each tier consumes nothing before recursing, so ast_parse_addition_expr
never terminates: for every fuel and every token stream (the claimed
input included) it runs out of fuel instead of producing any tree. -/
theorem C4_addition_tier_diverges :
    ∀ fl : Nat, ∀ st : PState,
      ast_parse_addition_expr fl st = .error .outOfFuel :=
  fun fl st => (tierCycleDiverges fl st).2.2.1

/-- C8, amended main theorem: at the token level the conflict check is
real — whenever the current token has kind MUTABLE and the next has kind
CONST, ast_parse_var_decl fails with the conflict panic ("Cannot decorate
a variable as both `mutable` and `const`"), before anything else is
parsed.  The original end-to-end claim fails because the lexer never
produces MUTABLE or CONST kinds (see `C8_counterexample`). -/
theorem C8_conflicting_qualifiers (fl : Nat) (st : PState)
    (h1 : (parser_peek_token st).kind = .MUTABLE)
    (h2 : (parser_peek_token { st with pos := st.pos + 1 }).kind = .CONST) :
    ast_parse_var_decl (fl + 1) st = .error (.parseError conflictMsg) := by
  simp only [ast_parse_var_decl, parser_chomp_if, parser_chomp]
  rw [if_neg (show ¬ (parser_peek_token st).kind = TokenKind.EXPORT by rw [h1]; decide)]
  dsimp only
  rw [if_pos h1]
  dsimp only
  rw [if_pos h2]
  dsimp only
  simp only [Option.isSome_some, and_self, if_true]

/-- Witness: on the token stream MUTABLE CONST EOF the hypotheses hold
and the conflict panic is returned. -/
theorem C8_conflicting_qualifiers_witness :
    ((parser_peek_token ⟨[mkTok .MUTABLE, mkTok .CONST, mkTok .TOK_EOF], 0⟩).kind
        = TokenKind.MUTABLE) ∧
    ast_parse_var_decl 1 ⟨[mkTok .MUTABLE, mkTok .CONST, mkTok .TOK_EOF], 0⟩
      = .error (.parseError conflictMsg) :=
  ⟨rfl, C8_conflicting_qualifiers 0 _ rfl rfl⟩

/-- The bytes of `mutable const Int32 x;`. -/
def c8bytes : List Nat :=
  [109, 117, 116, 97, 98, 108, 101, 32, 99, 111, 110, 115, 116, 32,
   73, 110, 116, 51, 50, 32, 120, 59]

/-- C8 counterexample: on the claimed input `mutable const Int32 x;` the
pipeline does not fail with the conflict error.  The lexer has no keyword
table, so every word lexes as IDENTIFIER (first conjunct; the trailing
`;` is even swallowed by the identifier scanner), and parsing the
resulting stream as a statement fails with a plain UnexpectedToken panic
(second conjunct), not the ConflictingQualifiers diagnostic the spec
expects at the `const` token. -/
theorem C8_counterexample :
    (Hazel.lexer_lex c8bytes 40).map (fun ts => ts.map Token.kind) =
      some [.IDENTIFIER, .IDENTIFIER, .IDENTIFIER, .IDENTIFIER, .TOK_EOF] ∧
    (match Hazel.lexer_lex c8bytes 40 with
     | some ts => ast_parse_statement 20 ⟨ts, 0⟩
     | none => .error .outOfFuel) = .error .unexpectedToken := by
  exact ⟨rfl, rfl⟩

/-- C9, amended main theorem: the dereference of the null label on the
block branch of ast_parse_labeled_statements is unreachable, because
ast_parse_block never completes with a block node at all — its statement
loop can only exit by panicking (ast_parse_statement never returns null),
so no block, labeled or not, is ever parsed. -/
theorem C9_block_never_parses :
    ∀ fl : Nat, ∀ st : PState, isOkSome (ast_parse_block fl st) = false := by
  intro fl st
  match fl with
  | 0 => rfl
  | fl + 1 =>
    simp only [ast_parse_block]
    cases hc : parser_chomp_if st .LBRACE with
    | mk t s1 =>
      cases t with
      | none => rfl
      | some tok =>
        dsimp only
        cases h : blockStmtsLoop fl [] s1 with
        | error e => rfl
        | ok p =>
          have := blockStmtsLoop_not_ok fl [] s1
          rw [h] at this
          simp [isLoopOk] at this

/-- C9 counterexample: on the canonical unlabeled block `{ }` (token
kinds LBRACE RBRACE EOF), ast_parse_labeled_statements does not reach the
`label->value` dereference: it fails with the UnexpectedToken panic
raised inside the block's statement loop. -/
theorem C9_counterexample :
    ast_parse_labeled_statements 20
      ⟨[mkTok .LBRACE, mkTok .RBRACE, mkTok .TOK_EOF], 0⟩
      = .error .unexpectedToken := by
  rfl

/-- C10 (confirmed): whenever the current token is `continue` and the
next is not the `:` of a break label, ast_parse_primary_expr hits the
inverted null test `label == null ? label->value : null` with a null
label and dereferences it — the run ends in the null-dereference error,
and the constructed Continue node is never returned. -/
theorem C10_continue_null_deref (fl : Nat) (st : PState)
    (h1 : (parser_peek_token st).kind = .CONTINUE)
    (h2 : ¬ (parser_peek_token { st with pos := st.pos + 1 }).kind = .COLON) :
    ast_parse_primary_expr (fl + 2) st = .error .nullDeref := by
  simp only [ast_parse_primary_expr, ast_parse_if_expr, ast_parse_if_expr_helper,
    ast_parse_break_label, parser_chomp_if, parser_chomp]
  rw [if_neg (show ¬ (parser_peek_token st).kind = TokenKind.IF by rw [h1]; decide)]
  dsimp only
  rw [if_neg (show ¬ (parser_peek_token st).kind = TokenKind.BREAK by rw [h1]; decide)]
  dsimp only
  rw [if_pos h1]
  dsimp only
  rw [if_neg h2]

/-- Witness: on the token stream CONTINUE EOF the hypotheses hold and the
parse ends in the null-dereference error. -/
theorem C10_continue_null_deref_witness :
    ((parser_peek_token ⟨[mkTok .CONTINUE, mkTok .TOK_EOF], 0⟩).kind
        = TokenKind.CONTINUE) ∧
    ast_parse_primary_expr 5 ⟨[mkTok .CONTINUE, mkTok .TOK_EOF], 0⟩
      = .error .nullDeref :=
  ⟨rfl, C10_continue_null_deref 3 _ rfl (by decide)⟩
